import Mathlib

/-!
Verification of the device-independent TTY line discipline
(src/drivers/tty/tty.c) against its specification.

The C functions are embedded shallowly: the per-line record `tty_t`
becomes the structure `Tty`, machine integers become `Nat`/`Int`,
and the effects that leave the server (device-callback echo bytes,
`sys_vircopy` to the reader, `sys_kill`, `notify`, `tty_reply`) are
recorded as traces inside the state.  External collaborators
(`tty_devread`, `tty_devwrite`, `sys_umap`, `handle_events` as seen
from `do_read`) are parameters of the embedded handlers, so the
theorems hold for every device back-end behaviour.
-/

namespace TTY

/-- Modelled from the spec: input-queue cell attribute bits of tty.h
(tty.h is not under src/).  A cell packs a 7- or 8-bit character with
an EOT bit (closes a deliverable token), an EOF bit (empty token, not
copied), an ESC bit (entered via LNEXT) and a 4-bit LEN field holding
the echoed width. -/
def IN_CHAR : Nat := 0x00FF

/-- Modelled from the spec: 4-bit LEN attribute field of a cell. -/
def IN_LEN : Nat := 0x0F00

/-- Modelled from the spec: shift amount of the LEN field. -/
def IN_LSHIFT : Nat := 8

/-- Modelled from the spec: EOT attribute bit of a cell. -/
def IN_EOT : Nat := 0x1000

/-- Modelled from the spec: EOF attribute bit of a cell. -/
def IN_EOF : Nat := 0x2000

/-- Modelled from the spec: ESC attribute bit of a cell. -/
def IN_ESC : Nat := 0x4000

/-- Complement of `IN_LEN` inside a 16-bit cell:  `ch & ~IN_LEN` in the
source is `ch &&& IN_NOT_LEN` for 16-bit cell values. -/
def IN_NOT_LEN : Nat := 0xF0FF

/-- Modelled from the spec: tab stop distance (power of two). -/
def TAB_SIZE : Int := 8

/-- Modelled from the spec: `TAB_SIZE - 1`. -/
def TAB_MASK : Int := 7

/-- Modelled from the spec: termios input-flag bits of termios.h
(not under src/); only distinctness of the bits matters. -/
def BRKINT : Nat := 0x0001

def ICRNL : Nat := 0x0002

def IGNBRK : Nat := 0x0004

def IGNCR : Nat := 0x0008

def IGNPAR : Nat := 0x0010

def INLCR : Nat := 0x0020

def INPCK : Nat := 0x0040

def ISTRIP : Nat := 0x0080

def IXOFF : Nat := 0x0100

def IXON : Nat := 0x0200

def PARMRK : Nat := 0x0400

def IXANY : Nat := 0x0800

/-- Modelled from the spec: termios output-flag bits. -/
def OPOST : Nat := 0x0001

def ONLCR : Nat := 0x0002

def XTABS : Nat := 0x0004

/-- Modelled from the spec: termios local-flag bits. -/
def ECHO : Nat := 0x0001

def ECHOE : Nat := 0x0002

def ECHOK : Nat := 0x0004

def ECHONL : Nat := 0x0008

def ICANON : Nat := 0x0010

def IEXTEN : Nat := 0x0020

def ISIG : Nat := 0x0040

def NOFLSH : Nat := 0x0080

/-- Modelled from the spec: the hangup output speed. -/
def B0 : Nat := 0

/-- Modelled from the spec: `c_cc` indices of termios.h, in the order
of the `termios_defaults` initialiser of the source. -/
def VEOF : Nat := 0

def VEOL : Nat := 1

def VERASE : Nat := 2

def VINTR : Nat := 3

def VKILL : Nat := 4

def VMIN : Nat := 5

def VQUIT : Nat := 6

def VTIME : Nat := 7

def VSUSP : Nat := 8

def VSTART : Nat := 9

def VSTOP : Nat := 10

def VREPRINT : Nat := 11

def VLNEXT : Nat := 12

def VDISCARD : Nat := 13

/-- Modelled from the spec: the character value that disables a `c_cc`
entry; a normal character equal to it is escaped by `in_process`. -/
def POSIX_VDISABLE : Nat := 0xFF

/-- Modelled from the spec: flow-control states of `tty_inhibited`. -/
def RUNNING : Nat := 0

def STOPPED : Nat := 1

/-- Modelled from the spec: signal numbers sent by `sigchar`. -/
def SIGHUP : Nat := 1

def SIGINT : Nat := 2

def SIGQUIT : Nat := 3

/-- Modelled from the spec: reply codes; only distinctness matters. -/
def TASK_REPLY : Nat := 901

def REVIVE : Nat := 902

/-- Modelled from the spec: error / status codes returned to callers
(kernel convention: errors are negative). -/
def OK : Int := 0

def EIO : Int := -5

def EAGAIN : Int := -11

def EACCES : Int := -13

def EINVAL : Int := -22

def EINTR : Int := -4

def EFAULT : Int := -14

def SUSPEND : Int := -998

/-- Modelled from the spec: select operation bits. -/
def SEL_RD : Nat := 1

def SEL_WR : Nat := 2

def SEL_ERR : Nat := 4

def SEL_NOTIFY : Nat := 8

/-- Modelled from the spec: access and open-mode bits used by
`do_open` and `do_cancel`. -/
def R_BIT : Nat := 1

def W_BIT : Nat := 2

def O_NOCTTY : Nat := 0x100

def O_NONBLOCK : Nat := 0x800

/-- Modelled from the spec: minor device number of the write-only log
device. -/
def LOG_MINOR : Nat := 15

/-- The termios image of a line: `struct termios` of the source with
machine integers as `Nat` and the `c_cc` array as a function. -/
structure Termios where
  c_iflag : Nat
  c_oflag : Nat
  c_cflag : Nat
  c_lflag : Nat
  c_ispeed : Nat
  c_ospeed : Nat
  c_cc : Nat → Nat

/-- The per-line record `tty_t` of the source, restricted to the
fields the embedded operations read or write.  The input queue is a
cell array `tty_inbuf` (indices `0 .. cap-1` for a capacity given
separately) with head, tail and the two counters.  The final five
fields are traces of effects that leave the server: bytes handed to
the device echo callback, bytes copied into the space of the reader,
signals sent by `sigchar`, `notify` destinations, and `tty_reply`
messages `(code, replyee, proc, status)`. -/
structure Tty where
  tty_termios : Termios
  tty_inbuf : Nat → Nat
  tty_inhead : Nat
  tty_intail : Nat
  tty_incount : Nat
  tty_eotct : Nat
  tty_min : Nat
  tty_inleft : Nat
  tty_incum : Nat
  tty_inrepcode : Nat
  tty_incaller : Nat
  tty_inproc : Nat
  tty_in_vir : Nat
  tty_inrevived : Nat
  tty_outleft : Nat
  tty_outcum : Nat
  tty_outrepcode : Nat
  tty_outcaller : Nat
  tty_outproc : Nat
  tty_out_vir : Nat
  tty_outrevived : Nat
  tty_position : Int
  tty_reprint : Bool
  tty_escaped : Bool
  tty_inhibited : Nat
  tty_events : Nat
  tty_pgrp : Nat
  tty_openct : Nat
  tty_select_ops : Nat
  tty_select_proc : Nat
  tty_index : Nat
  tty_timer_on : Bool
  echoSink : List Nat
  delivered : List Nat
  sigsSent : List Nat
  notifies : List Nat
  replies : List (Nat × Nat × Nat × Int)

/-- Pointwise update of a cell array. -/
def bufUpd (f : Nat → Nat) (i v : Nat) : Nat → Nat :=
  fun j => if j = i then v else f j

/-- The wrap of the source idiom `if (++p == bufend(b)) p = b;` on
indices: successor modulo a buffer of `len` slots. -/
def wrapNext (len i : Nat) : Nat :=
  if i + 1 = len then 0 else i + 1

/-! ## Output processor (`out_process`) -/

/-- Result of the `out_process` main loop: the circular buffer, the
current position inside it, the column, and the residual values of
`ict` and `oct`. -/
structure OutLoopResult where
  buf : List Nat
  bpos : Nat
  pos : Int
  ict : Nat
  oct : Int
  deriving Repr, DecidableEq

/-- The `do { *bpos = ' '; if (++bpos == bend) bpos = bstart; }
while (--tablen != 0)` loop of the tab-expansion branch. -/
def writeTabSpaces : Nat → List Nat → Nat → List Nat × Nat
  | 0, buf, bpos => (buf, bpos)
  | n + 1, buf, bpos => writeTabSpaces n (buf.set bpos 32) (wrapNext buf.length bpos)

/-- The `while (ict > 0)` loop of `out_process` (tty.c:1198-1254).
`ict` doubles as fuel: every continuing iteration consumes exactly one
input character.  The four `goto out_done` exits return directly. -/
def out_loop (oflag : Nat) : Nat → List Nat → Nat → Int → Int → OutLoopResult
  | 0, buf, bpos, pos, oct => ⟨buf, bpos, pos, 0, oct⟩
  | Nat.succ ict, buf, bpos, pos, oct =>
    let ch := buf.getD bpos 0
    if ch = 7 then
      out_loop oflag ict buf (wrapNext buf.length bpos) pos (oct - 1)
    else if ch = 8 then
      out_loop oflag ict buf (wrapNext buf.length bpos) (pos - 1) (oct - 1)
    else if ch = 13 then
      out_loop oflag ict buf (wrapNext buf.length bpos) 0 (oct - 1)
    else if ch = 10 then
      if oflag &&& (OPOST ||| ONLCR) = OPOST ||| ONLCR then
        if 2 ≤ oct then
          let bpos1 := wrapNext buf.length bpos
          ⟨(buf.set bpos 13).set bpos1 10, bpos1, 0, ict, oct - 2⟩
        else
          ⟨buf, bpos, pos, Nat.succ ict, oct⟩
      else
        out_loop oflag ict buf (wrapNext buf.length bpos) pos (oct - 1)
    else if ch = 9 then
      let tablen : Int := TAB_SIZE - Int.land pos TAB_MASK
      if oflag &&& (OPOST ||| XTABS) = OPOST ||| XTABS then
        if tablen ≤ oct then
          let w := writeTabSpaces tablen.toNat buf bpos
          ⟨w.1, w.2, pos + tablen, ict, oct - tablen⟩
        else
          ⟨buf, bpos, pos, Nat.succ ict, oct⟩
      else
        out_loop oflag ict buf (wrapNext buf.length bpos) (pos + tablen) (oct - 1)
    else
      out_loop oflag ict buf (wrapNext buf.length bpos) (pos + 1) (oct - 1)

/-- Result of `out_process`: the updated line, the caller buffer, the
final position inside it, and the rewritten `*icount` / `*ocount`
(number of input characters consumed, number of output slots used). -/
structure OutProcResult where
  tp : Tty
  buf : List Nat
  bpos : Nat
  icount : Int
  ocount : Int

/-- Output processing on a circular buffer (tty.c:1184-1260).  The
buffer segment `[bstart, bend)` is the list `buf`, the position
`bpos` an index into it.  On return `icount` and `ocount` hold the
consumed counts, as the source rewrites `*icount` and `*ocount`, and
the column of the line is reduced modulo the tab size. -/
def out_process (tp : Tty) (buf : List Nat) (bpos : Nat) (icount ocount : Int) :
    OutProcResult :=
  if icount ≤ 0 then
    ⟨{ tp with tty_position := Int.land tp.tty_position TAB_MASK }, buf, bpos, 0, 0⟩
  else
    let r := out_loop tp.tty_termios.c_oflag icount.toNat buf bpos tp.tty_position ocount
    ⟨{ tp with tty_position := Int.land r.pos TAB_MASK }, r.buf, r.bpos,
      icount - (r.ict : Int), ocount - r.oct⟩

/-! ## Echo engine (`tty_echo`, `rawecho`) -/

/-- The device echo callback `(*tp->tty_echo)(tp, ch)`: per the spec
contract it emits a single byte to the sink of the device. -/
def devEcho (tp : Tty) (ch : Nat) : Tty :=
  { tp with echoSink := tp.echoSink ++ [ch] }

/-- The tab branch of `tty_echo` (tty.c:1067-1073):
`len = 0; do { echo(' '); len++; } while (len < TAB_SIZE &&
(tty_position & TAB_MASK) != 0)`.  The fuel, eight, bounds the loop
exactly as `len < TAB_SIZE` does. -/
def echoTab (tp : Tty) (len : Nat) : Nat → Tty × Nat
  | 0 => (tp, len)
  | Nat.succ f =>
    let tp1 := devEcho tp 32
    let len1 := len + 1
    if (len1 : Int) < TAB_SIZE ∧ Int.land tp1.tty_position TAB_MASK ≠ 0 then
      echoTab tp1 len1 f
    else (tp1, len1)

/-- The EOF backspacing of `tty_echo` (tty.c:1094):
`while (len > 0) { echo(backspace); len--; }`. -/
def echoBackspaces (tp : Tty) : Nat → Tty
  | 0 => tp
  | Nat.succ n => echoBackspaces (devEcho tp 8) n

/-- The echo engine (tty.c:1044-1098).  Returns the updated line and
the cell with its LEN field replaced by the echoed width. -/
def tty_echo (tp : Tty) (ch0 : Nat) : Tty × Nat :=
  let ch := ch0 &&& IN_NOT_LEN
  if tp.tty_termios.c_lflag &&& ECHO = 0 then
    if ch = (10 ||| IN_EOT) ∧
        tp.tty_termios.c_lflag &&& (ICANON ||| ECHONL) = ICANON ||| ECHONL then
      (devEcho tp 10, ch)
    else (tp, ch)
  else
    let rp := if tp.tty_incount = 0 then false else tp.tty_reprint
    let el :=
      if ch &&& IN_CHAR < 32 then
        let key := ch &&& (IN_ESC ||| IN_EOF ||| IN_EOT ||| IN_CHAR)
        if key = 9 then
          echoTab tp 0 8
        else if key = (13 ||| IN_EOT) ∨ key = (10 ||| IN_EOT) then
          (devEcho tp (ch &&& IN_CHAR), 0)
        else
          (devEcho (devEcho tp 94) (64 + (ch &&& IN_CHAR)), 2)
      else if ch &&& IN_CHAR = 127 then
        (devEcho (devEcho tp 94) 63, 2)
      else
        (devEcho tp (ch &&& IN_CHAR), 1)
    let el :=
      if ch &&& IN_EOF ≠ 0 then (echoBackspaces el.1 el.2, 0) else el
    ({ el.1 with tty_reprint := rp }, ch ||| (el.2 <<< IN_LSHIFT))

/-- Echo without interpretation (tty.c:1103-1109); the reprint flag is
saved and restored around the device callback. -/
def rawecho (tp : Tty) (ch : Nat) : Tty :=
  let rp := tp.tty_reprint
  let tp1 := if tp.tty_termios.c_lflag &&& ECHO ≠ 0 then devEcho tp ch else tp
  { tp1 with tty_reprint := rp }

/-! ## Reprint and erase (`reprint`, `back_over`) -/

/-- The backward walk of `reprint` (tty.c:1154-1161): from `(head,
count)` back to the most recent line break.  A head value equal to
`cap` stands for the `bufend` pointer of the source. -/
def reprintFindBreak (cap : Nat) (buf : Nat → Nat) : Nat → Nat → Nat × Nat
  | head, 0 => (head, 0)
  | head, Nat.succ c =>
    let head1 := if head = 0 then cap else head
    if buf (head1 - 1) &&& IN_EOT ≠ 0 then (head1, Nat.succ c)
    else reprintFindBreak cap buf (head1 - 1) c

/-- The forward re-echo loop of `reprint` (tty.c:1170-1175), a
do-while that rewrites each cell with its re-echoed LEN.  The fuel is
the number of cells between `count` and `tty_incount`. -/
def reprintLoop (cap : Nat) : Nat → Tty → Nat → Nat → Tty
  | 0, tp, _, _ => tp
  | Nat.succ f, tp, head, count =>
    let head1 := if head = cap then 0 else head
    let er := tty_echo tp (tp.tty_inbuf head1)
    let tp2 := { er.1 with tty_inbuf := bufUpd er.1.tty_inbuf head1 er.2 }
    let count1 := count + 1
    if count1 < tp2.tty_incount then reprintLoop cap f tp2 (head1 + 1) count1
    else tp2

/-- Reprint the queued input after `^R` or after output interleaving
(tty.c:1143-1176). -/
def reprint (cap : Nat) (tp0 : Tty) : Tty :=
  let tp := { tp0 with tty_reprint := false }
  let fb := reprintFindBreak cap tp.tty_inbuf tp.tty_inhead tp.tty_incount
  if fb.2 = tp.tty_incount then tp
  else
    let tp := (tty_echo tp (tp.tty_termios.c_cc VREPRINT ||| IN_ESC)).1
    let tp := rawecho tp 13
    let tp := rawecho tp 10
    reprintLoop cap (tp.tty_incount - fb.2) tp fb.1 fb.2

/-- The `ECHOE` erase output of `back_over` (tty.c:1128-1134): `len`
copies of backspace, space, backspace through `rawecho`. -/
def eraseEchoes (tp : Tty) : Nat → Tty
  | 0 => tp
  | Nat.succ n => eraseEchoes (rawecho (rawecho (rawecho tp 8) 32) 8) n

/-- Pop the most recently queued cell unless it is a line break
(tty.c:1114-1137); returns 1 when a character was erased, 0 when not,
as the source does. -/
def back_over (cap : Nat) (tp : Tty) : Tty × Nat :=
  if tp.tty_incount = 0 then (tp, 0)
  else
    let head := if tp.tty_inhead = 0 then cap else tp.tty_inhead
    let prev := head - 1
    if tp.tty_inbuf prev &&& IN_EOT ≠ 0 then (tp, 0)
    else
      let tp := if tp.tty_reprint then reprint cap tp else tp
      let tp := { tp with tty_inhead := prev, tty_incount := tp.tty_incount - 1 }
      if tp.tty_termios.c_lflag &&& ECHOE ≠ 0 then
        let len := (tp.tty_inbuf prev &&& IN_LEN) >>> IN_LSHIFT
        (eraseEchoes tp len, 1)
      else (tp, 1)

/-! ## Signals and input flushing (`sigchar`, `tty_icancel`) -/

/-- Process an INTR/QUIT/KILL/HUP character (tty.c:1363-1383).  The
signal to the process group is traced in `sigsSent`; without `NOFLSH`
the input queue is flushed and output restarted.  The device
`ocancel` callback only discards device-side output. -/
def sigchar (tp0 : Tty) (sig : Nat) : Tty :=
  let tp :=
    if tp0.tty_pgrp ≠ 0 then { tp0 with sigsSent := tp0.sigsSent ++ [sig] } else tp0
  if tp.tty_termios.c_lflag &&& NOFLSH = 0 then
    { tp with
      tty_incount := 0
      tty_eotct := 0
      tty_intail := tp.tty_inhead
      tty_inhibited := RUNNING
      tty_events := 1 }
  else tp

/-- Discard all pending input (tty.c:1388-1395).  The device `icancel`
callback only discards device-side buffers. -/
def tty_icancel (tp : Tty) : Tty :=
  { tp with tty_incount := 0, tty_eotct := 0, tty_intail := tp.tty_inhead }

/-! ## Attribute application (`setattr`) -/

/-- The queue-marking loop of `setattr` (tty.c:1302-1308): put a line
break on `count` cells starting at the tail. -/
def markEotLoop (cap : Nat) : Nat → (Nat → Nat) → Nat → (Nat → Nat)
  | 0, buf, _ => buf
  | Nat.succ c, buf, inp =>
    markEotLoop cap c (bufUpd buf inp (buf inp ||| IN_EOT)) (wrapNext cap inp)

/-- The raw-mode queue marking of `setattr` (tty.c:1295-1309): leaving
canonical mode puts a line break on every queued cell and makes the
whole queue deliverable. -/
def setattr_mark (cap : Nat) (tp : Tty) : Tty :=
  if tp.tty_termios.c_lflag &&& ICANON = 0 then
    { tp with
      tty_eotct := tp.tty_incount
      tty_inbuf := markEotLoop cap tp.tty_incount tp.tty_inbuf tp.tty_intail }
  else tp

/-- The MIN computation of `setattr` (tty.c:1313-1323). -/
def setattr_min (tp : Tty) : Tty :=
  if tp.tty_termios.c_lflag &&& ICANON ≠ 0 then { tp with tty_min := 1 }
  else
    { tp with
      tty_min :=
        if tp.tty_termios.c_cc VMIN = 0 ∧ tp.tty_termios.c_cc VTIME > 0 then 1
        else tp.tty_termios.c_cc VMIN }

/-- The flow-control reset of `setattr` (tty.c:1325-1329). -/
def setattr_ixon (tp : Tty) : Tty :=
  if tp.tty_termios.c_iflag &&& IXON = 0 then
    { tp with tty_inhibited := RUNNING, tty_events := 1 }
  else tp

/-- Apply new line attributes (tty.c:1289-1336).  `settimer(tp,
FALSE)` is modelled by clearing `tty_timer_on`; the trailing device
`ioctl` callback touches only the hardware. -/
def setattr (cap : Nat) (tp : Tty) : Tty :=
  let tp1 := setattr_mark cap tp
  let tp2 := { tp1 with tty_timer_on := false }
  let tp3 := setattr_min tp2
  let tp4 := setattr_ixon tp3
  if tp4.tty_termios.c_ospeed = B0 then sigchar tp4 SIGHUP else tp4

/-! ## Queue-to-reader transfer (`in_transfer`) -/

/-- The `while (tty_inleft > 0 && tty_eotct > 0)` loop of
`in_transfer` (tty.c:827-854), threading the number of bytes staged
for the reader.  Each iteration removes one cell from the queue, so
`tty_incount` serves as fuel: under the queue invariant
`eotct ≤ incount` the guard fails before the fuel does. -/
def in_transfer_loop (cap : Nat) : Nat → Tty → Nat → Tty × Nat
  | 0, tp, n => (tp, n)
  | Nat.succ f, tp, n =>
    if tp.tty_inleft > 0 ∧ tp.tty_eotct > 0 then
      let ch := tp.tty_inbuf tp.tty_intail
      let st :=
        if ch &&& IN_EOF = 0 then
          ({ tp with
             delivered := tp.delivered ++ [ch &&& IN_CHAR]
             tty_inleft := tp.tty_inleft - 1 }, n + 1)
        else (tp, n)
      let tp1 :=
        { st.1 with
          tty_intail := wrapNext cap st.1.tty_intail
          tty_incount := st.1.tty_incount - 1 }
      let tp2 :=
        if ch &&& IN_EOT ≠ 0 then
          let tpe := { tp1 with tty_eotct := tp1.tty_eotct - 1 }
          if tpe.tty_termios.c_lflag &&& ICANON ≠ 0 then
            { tpe with tty_inleft := 0 }
          else tpe
        else tp1
      in_transfer_loop cap f tp2 st.2
    else (tp, n)

/-- Transfer bytes from the input queue to the reader
(tty.c:812-876).  The 64-byte staging buffer of the source flushes
to the space of the reader in chunks; the model appends each byte to
the `delivered` trace directly and accounts `tty_in_vir` and
`tty_incum` once after the loop, which yields the same final state. -/
def in_transfer (cap : Nat) (tp0 : Tty) : Tty :=
  let tp := if tp0.tty_termios.c_ospeed = B0 then { tp0 with tty_min := 0 } else tp0
  if tp.tty_inleft = 0 ∨ tp.tty_eotct < tp.tty_min then tp
  else
    let r := in_transfer_loop cap tp.tty_incount tp 0
    let tp1 : Tty :=
      { r.1 with
        tty_in_vir := r.1.tty_in_vir + r.2
        tty_incum := r.1.tty_incum + r.2 }
    if tp1.tty_inleft = 0 then
      if tp1.tty_inrepcode = REVIVE then
        { tp1 with notifies := tp1.notifies ++ [tp1.tty_incaller], tty_inrevived := 1 }
      else
        { tp1 with
          replies := tp1.replies ++
            [(tp1.tty_inrepcode, tp1.tty_incaller, tp1.tty_inproc, (tp1.tty_incum : Int))]
          tty_inleft := 0
          tty_incum := 0 }
    else tp1

/-! ## Input processor (`in_process`)

The body of the `for (ct = 0; ct < count; ct++)` loop of
`in_process` (tty.c:894-1035) is embedded as a chain of functions cut
at the comment boundaries of the source: the part up to the signal
check either consumes the character (`continue` in the source) or
falls through to the storage part with the transformed character;
the storage part (tty.c:1004-1034) either continues the loop or
breaks out of it (the single `break` of the loop, raw mode with a
full queue). -/

inductive PreResult where
  | consumed (tp : Tty)
  | store (tp : Tty) (ch : Nat)

inductive StoreResult where
  | cont (tp : Tty) (timeset : Bool)
  | brk (tp : Tty)

/-- The `while (back_over(tp)) {}` loop of KILL processing
(tty.c:951).  Every successful erase decrements `tty_incount`, so
`tty_incount + 1` steps of fuel always reach the failing call. -/
def killLoop (cap : Nat) : Nat → Tty → Tty
  | 0, tp => tp
  | Nat.succ f, tp =>
    let r := back_over cap tp
    if r.2 = 1 then killLoop cap f r.1 else r.1

/-- Signal characters (tty.c:992-1002): INTR and QUIT raise a signal,
are echoed, and are not stored. -/
def in_process_sig (tp : Tty) (ch : Nat) : PreResult :=
  if tp.tty_termios.c_lflag &&& ISIG ≠ 0 ∧
      (ch = tp.tty_termios.c_cc VINTR ∨ ch = tp.tty_termios.c_cc VQUIT) then
    let sig := if ch = tp.tty_termios.c_cc VQUIT then SIGQUIT else SIGINT
    let tp1 := sigchar tp sig
    .consumed (tty_echo tp1 ch).1
  else .store tp ch

/-- Start/stop input control (tty.c:970-990). -/
def in_process_flow (tp : Tty) (ch : Nat) : PreResult :=
  if tp.tty_termios.c_iflag &&& IXON ≠ 0 then
    if ch = tp.tty_termios.c_cc VSTOP then
      .consumed { tp with tty_inhibited := STOPPED, tty_events := 1 }
    else if tp.tty_inhibited ≠ 0 then
      if ch = tp.tty_termios.c_cc VSTART ∨ tp.tty_termios.c_iflag &&& IXANY ≠ 0 then
        let tp1 := { tp with tty_inhibited := RUNNING, tty_events := 1 }
        if ch = tp1.tty_termios.c_cc VSTART then .consumed tp1
        else in_process_sig tp1 ch
      else in_process_sig tp ch
    else in_process_sig tp ch
  else in_process_sig tp ch

/-- Canonical-mode editing and line-break marking (tty.c:937-968). -/
def in_process_canon (cap : Nat) (tp : Tty) (ch : Nat) : PreResult :=
  if tp.tty_termios.c_lflag &&& ICANON ≠ 0 then
    if ch = tp.tty_termios.c_cc VERASE then
      let tp1 := (back_over cap tp).1
      let tp2 :=
        if tp1.tty_termios.c_lflag &&& ECHOE = 0 then (tty_echo tp1 ch).1 else tp1
      .consumed tp2
    else if ch = tp.tty_termios.c_cc VKILL then
      let tp1 := killLoop cap (tp.tty_incount + 1) tp
      let tp2 :=
        if tp1.tty_termios.c_lflag &&& ECHOE = 0 then
          let tpe := (tty_echo tp1 ch).1
          if tpe.tty_termios.c_lflag &&& ECHOK ≠ 0 then rawecho tpe 10 else tpe
        else tp1
      .consumed tp2
    else
      let ch1 := if ch = tp.tty_termios.c_cc VEOF then ch ||| IN_EOT ||| IN_EOF else ch
      let ch2 := if ch1 = 10 then ch1 ||| IN_EOT else ch1
      let ch3 := if ch2 = tp.tty_termios.c_cc VEOL then ch2 ||| IN_EOT else ch2
      in_process_flow tp ch3
  else in_process_flow tp ch

/-- Escape of the disable value and CR/LF input mapping
(tty.c:925-935), continuing into the canonical block. -/
def in_process_rest (cap : Nat) (tp : Tty) (ch0 : Nat) : PreResult :=
  let ch := if ch0 = POSIX_VDISABLE then ch0 ||| IN_ESC else ch0
  if ch = 13 ∧ tp.tty_termios.c_iflag &&& IGNCR ≠ 0 then .consumed tp
  else
    let ch1 :=
      if ch = 13 then
        if tp.tty_termios.c_iflag &&& ICRNL ≠ 0 then 10 else ch
      else if ch = 10 then
        if tp.tty_termios.c_iflag &&& INLCR ≠ 0 then 13 else ch
      else ch
    in_process_canon cap tp ch1

/-- The per-character processing of `in_process` before the storage
decision (tty.c:896-1002): byte masking, ISTRIP, the IEXTEN
extensions (escapes, LNEXT, REPRINT), then the common rest. -/
def in_process_pre (cap : Nat) (tp0 : Tty) (c : Nat) : PreResult :=
  let ch := c &&& 0xFF
  let ch := if tp0.tty_termios.c_iflag &&& ISTRIP ≠ 0 then ch &&& 0x7F else ch
  if tp0.tty_termios.c_lflag &&& IEXTEN ≠ 0 then
    let esc := tp0.tty_escaped
    let tp := if esc then { tp0 with tty_escaped := false } else tp0
    let ch := if esc then ch ||| IN_ESC else ch
    if ch = tp.tty_termios.c_cc VLNEXT then
      let tp1 := { tp with tty_escaped := true }
      let tp2 := rawecho (rawecho tp1 94) 8
      .consumed tp2
    else if ch = tp.tty_termios.c_cc VREPRINT then
      .consumed (reprint cap tp)
    else
      in_process_rest cap tp ch
  else in_process_rest cap tp0 ch

/-- The storage part of the `in_process` loop body (tty.c:1004-1034):
the queue-full policy, the raw-mode line break and inter-byte timer,
echoing, the enqueue, and the opportunistic `in_transfer` when the
queue fills up.  `settimer(tp, TRUE)` is modelled by setting
`tty_timer_on`. -/
def in_process_store (cap : Nat) (tp0 : Tty) (ch0 : Nat) (timeset : Bool) :
    StoreResult :=
  if tp0.tty_incount = cap then
    if tp0.tty_termios.c_lflag &&& ICANON ≠ 0 then .cont tp0 timeset else .brk tp0
  else
    let s1 : Tty × Nat × Bool :=
      if tp0.tty_termios.c_lflag &&& ICANON = 0 then
        let ch1 := ch0 ||| IN_EOT
        if ¬timeset ∧ tp0.tty_termios.c_cc VMIN > 0 ∧ tp0.tty_termios.c_cc VTIME > 0 then
          ({ tp0 with tty_timer_on := true }, ch1, true)
        else (tp0, ch1, timeset)
      else (tp0, ch0, timeset)
    let s2 : Tty × Nat :=
      if s1.1.tty_termios.c_lflag &&& (ECHO ||| ECHONL) ≠ 0 then tty_echo s1.1 s1.2.1
      else (s1.1, s1.2.1)
    let tp3 : Tty :=
      { s2.1 with
        tty_inbuf := bufUpd s2.1.tty_inbuf s2.1.tty_inhead s2.2
        tty_inhead := wrapNext cap s2.1.tty_inhead
        tty_incount := s2.1.tty_incount + 1
        tty_eotct := if s2.2 &&& IN_EOT ≠ 0 then s2.1.tty_eotct + 1 else s2.1.tty_eotct }
    let tp4 := if tp3.tty_incount = cap then in_transfer cap tp3 else tp3
    .cont tp4 s1.2.2

/-- The character loop of `in_process` (tty.c:894-1035), threading the
`timeset` flag and the count `ct` of consumed input bytes. -/
def in_process_loop (cap : Nat) : Tty → List Nat → Bool → Nat → Tty × Nat
  | tp, [], _, ct => (tp, ct)
  | tp, c :: rest, timeset, ct =>
    match in_process_pre cap tp c with
    | .consumed tp1 => in_process_loop cap tp1 rest timeset (ct + 1)
    | .store tp1 ch =>
      match in_process_store cap tp1 ch timeset with
      | .cont tp2 ts => in_process_loop cap tp2 rest ts (ct + 1)
      | .brk tp2 => (tp2, ct)

/-- Process freshly arrived input characters (tty.c:884-1037); returns
the updated line and the number of input bytes consumed. -/
def in_process (cap : Nat) (tp : Tty) (buf : List Nat) : Tty × Nat :=
  in_process_loop cap tp buf false 0

/-! ## Request handlers

The handlers take their external collaborators as parameters: the
probe `(*tp->tty_devwrite)(tp, 1)` used by `select_try` is a
function `devwr : Tty → Bool`, the outcome of `sys_umap` a boolean
`umap_ok`, and `handle_events` (which runs the device callbacks) an
arbitrary transformer `hevents : Tty → Tty`, so the theorems hold for
every back-end behaviour. -/

/-- An incoming device-request message; the fields mirror the message
fields the handlers read. -/
structure Msg where
  m_source : Nat
  m_proc_nr : Nat
  m_count : Int
  m_tty_line : Nat
  m_tty_flags : Nat
  m_address : Nat

/-- A reply sent with `tty_reply` (tty.c:1345-1357), recorded in the
trace of the line. -/
def tty_reply (tp : Tty) (code replyee proc_nr : Nat) (status : Int) : Tty :=
  { tp with replies := tp.replies ++ [(code, replyee, proc_nr, status)] }

/-- Compute the ready operations of a select request
(tty.c:708-741). -/
def select_try (devwr : Tty → Bool) (tp : Tty) (ops : Nat) : Nat :=
  let r0 := if tp.tty_termios.c_ospeed = B0 then ops else 0
  let r1 :=
    if ops &&& SEL_RD ≠ 0 then
      if tp.tty_inleft > 0 then SEL_RD
      else if tp.tty_incount > 0 ∧
          (tp.tty_termios.c_lflag &&& ICANON = 0 ∨ tp.tty_eotct > 0) then SEL_RD
      else 0
    else 0
  let r2 :=
    if ops &&& SEL_WR ≠ 0 then
      if tp.tty_outleft > 0 then SEL_WR
      else if devwr tp then SEL_WR
      else 0
    else 0
  r0 ||| r1 ||| r2

/-- Retry a pending select subscription (tty.c:743-748); a ready
subscription notifies the subscriber. -/
def select_retry (devwr : Tty → Bool) (tp : Tty) : Tty :=
  if select_try devwr tp tp.tty_select_ops ≠ 0 then
    { tp with notifies := tp.notifies ++ [tp.tty_select_proc] }
  else tp

/-- A process wants to read from the line (tty.c:355-424). -/
def do_read (cap : Nat) (devwr : Tty → Bool) (umap_ok : Bool) (hevents : Tty → Tty)
    (tp0 : Tty) (m : Msg) : Tty :=
  if tp0.tty_inleft > 0 then
    let tp := tty_reply tp0 TASK_REPLY m.m_source m.m_proc_nr EIO
    if tp.tty_select_ops ≠ 0 then select_retry devwr tp else tp
  else if m.m_count ≤ 0 then
    let tp := tty_reply tp0 TASK_REPLY m.m_source m.m_proc_nr EINVAL
    if tp.tty_select_ops ≠ 0 then select_retry devwr tp else tp
  else if ¬umap_ok then
    let tp := tty_reply tp0 TASK_REPLY m.m_source m.m_proc_nr EFAULT
    if tp.tty_select_ops ≠ 0 then select_retry devwr tp else tp
  else
    let tp : Tty :=
      { tp0 with
        tty_inrepcode := TASK_REPLY
        tty_incaller := m.m_source
        tty_inproc := m.m_proc_nr
        tty_in_vir := m.m_address
        tty_inleft := m.m_count.toNat }
    let tp :=
      if tp.tty_termios.c_lflag &&& ICANON = 0 ∧ tp.tty_termios.c_cc VTIME > 0 then
        if tp.tty_termios.c_cc VMIN = 0 then
          { tp with tty_timer_on := true, tty_min := 1 }
        else if tp.tty_eotct = 0 then
          { tp with tty_timer_on := false, tty_min := tp.tty_termios.c_cc VMIN }
        else tp
      else tp
    let tp := in_transfer cap tp
    let tp := hevents tp
    if tp.tty_inleft = 0 then
      if tp.tty_select_ops ≠ 0 then select_retry devwr tp else tp
    else
      let s : Tty × Int :=
        if m.m_tty_flags &&& O_NONBLOCK ≠ 0 then
          ({ tp with tty_inleft := 0, tty_incum := 0 }, EAGAIN)
        else
          ({ tp with tty_inrepcode := REVIVE }, SUSPEND)
      let tp1 := tty_reply s.1 TASK_REPLY m.m_source m.m_proc_nr s.2
      if tp1.tty_select_ops ≠ 0 then select_retry devwr tp1 else tp1

/-- A process wants to write on the line (tty.c:430-473). -/
def do_write (hevents : Tty → Tty) (umap_ok : Bool) (tp0 : Tty) (m : Msg) : Tty :=
  if tp0.tty_outleft > 0 then
    tty_reply tp0 TASK_REPLY m.m_source m.m_proc_nr EIO
  else if m.m_count ≤ 0 then
    tty_reply tp0 TASK_REPLY m.m_source m.m_proc_nr EINVAL
  else if ¬umap_ok then
    tty_reply tp0 TASK_REPLY m.m_source m.m_proc_nr EFAULT
  else
    let tp : Tty :=
      { tp0 with
        tty_outrepcode := TASK_REPLY
        tty_outcaller := m.m_source
        tty_outproc := m.m_proc_nr
        tty_out_vir := m.m_address
        tty_outleft := m.m_count.toNat }
    let tp := hevents tp
    if tp.tty_outleft = 0 then tp
    else if m.m_tty_flags &&& O_NONBLOCK ≠ 0 then
      let r : Int := if tp.tty_outcum > 0 then (tp.tty_outcum : Int) else EAGAIN
      tty_reply { tp with tty_outleft := 0, tty_outcum := 0 }
        TASK_REPLY m.m_source m.m_proc_nr r
    else
      tty_reply { tp with tty_outrepcode := REVIVE }
        TASK_REPLY m.m_source m.m_proc_nr SUSPEND

/-- A line has been opened (tty.c:633-652).  `COUNT` carries the
access mode and open flags, a nonnegative bit set. -/
def do_open (tp : Tty) (m : Msg) : Tty :=
  if m.m_tty_line = LOG_MINOR then
    if m.m_count.toNat &&& R_BIT ≠ 0 then
      tty_reply tp TASK_REPLY m.m_source m.m_proc_nr EACCES
    else
      tty_reply tp TASK_REPLY m.m_source m.m_proc_nr OK
  else
    let s : Tty × Int :=
      if m.m_count.toNat &&& O_NOCTTY = 0 then
        ({ tp with tty_pgrp := m.m_proc_nr }, 1)
      else (tp, OK)
    let tp1 := { s.1 with tty_openct := s.1.tty_openct + 1 }
    tty_reply tp1 TASK_REPLY m.m_source m.m_proc_nr s.2

/-- The reply of a STATUS poll. -/
inductive StatusReply where
  | ioReady (minor ops : Nat)
  | revive (proc : Nat) (status : Nat)
  | noStatus
  deriving Repr, DecidableEq

/-- The scan of `do_status` (tty.c:283-348) over the line table in
order, configured without pseudo terminals (`NR_PTYS == 0`), for the
calling subscriber.  `tty_select_ops &= ~ops` is embedded as
`a - (a &&& ops)`, which clears exactly the bits of `ops` because the
bits of `a &&& ops` form a subset of those of `a`. -/
def do_status_scan (devwr : Tty → Bool) (caller : Nat) :
    List Tty → List Tty × StatusReply
  | [] => ([], .noStatus)
  | tp :: rest =>
    let ops := select_try devwr tp tp.tty_select_ops
    if ops ≠ 0 ∧ tp.tty_select_proc = caller then
      ({ tp with tty_select_ops := tp.tty_select_ops - (tp.tty_select_ops &&& ops) }
          :: rest,
        .ioReady tp.tty_index ops)
    else if tp.tty_inrevived ≠ 0 ∧ tp.tty_incaller = caller then
      ({ tp with tty_inleft := 0, tty_incum := 0, tty_inrevived := 0 } :: rest,
        .revive tp.tty_inproc tp.tty_incum)
    else if tp.tty_outrevived ≠ 0 ∧ tp.tty_outcaller = caller then
      ({ tp with tty_outcum := 0, tty_outrevived := 0 } :: rest,
        .revive tp.tty_outproc tp.tty_outcum)
    else
      let r := do_status_scan devwr caller rest
      (tp :: r.1, r.2)

/-- A STATUS poll (tty.c:283-348): at most one pending event is
returned for the calling subscriber; the updated table and the reply
message. -/
def do_status (devwr : Tty → Bool) (table : List Tty) (caller : Nat) :
    List Tty × StatusReply :=
  do_status_scan devwr caller table

/-! ## The circular-queue invariant -/

/-- The number of line breaks present in the region of `count` cells
of `buf` starting at `tail`: positions `(tail + i) % cap` for
`i < count`. -/
def countEotOn (cap : Nat) (buf : Nat → Nat) (tail count : Nat) : Nat :=
  (List.range count).countP
    (fun i => decide (buf ((tail + i) % cap) &&& IN_EOT ≠ 0))

/-- The number of line breaks actually present in the occupied region
of the input queue: positions `(tail + i) % cap` for `i < count`. -/
def countEot (cap : Nat) (tp : Tty) : Nat :=
  countEotOn cap tp.tty_inbuf tp.tty_intail tp.tty_incount

/-- The inductive invariant of the input queue of a line: head and
tail are valid indices, the count fits the capacity, head is tail
plus count modulo the capacity, and `tty_eotct` counts exactly the
EOT cells of the occupied region.  The numeric invariants of the
specification (`0 ≤ eotct ≤ count ≤ cap`, `tail + count ≡ head`)
follow from it. -/
def Inv (cap : Nat) (tp : Tty) : Prop :=
  tp.tty_intail < cap ∧ tp.tty_inhead < cap ∧ tp.tty_incount ≤ cap ∧
    (tp.tty_intail + tp.tty_incount) % cap = tp.tty_inhead ∧
    tp.tty_eotct = countEot cap tp

instance (cap : Nat) (tp : Tty) : Decidable (Inv cap tp) := by
  unfold Inv; infer_instance

/-- A concrete termios image used to instantiate the theorems: all
flags clear, every control character disabled. -/
def termios0 : Termios :=
  ⟨0, 0, 0, 0, 0, 0, fun _ => 0xFF⟩

/-- A concrete line state used to instantiate the theorems. -/
def tty0 : Tty where
  tty_termios := termios0
  tty_inbuf := fun _ => 0
  tty_inhead := 0
  tty_intail := 0
  tty_incount := 0
  tty_eotct := 0
  tty_min := 0
  tty_inleft := 0
  tty_incum := 0
  tty_inrepcode := 0
  tty_incaller := 0
  tty_inproc := 0
  tty_in_vir := 0
  tty_inrevived := 0
  tty_outleft := 0
  tty_outcum := 0
  tty_outrepcode := 0
  tty_outcaller := 0
  tty_outproc := 0
  tty_out_vir := 0
  tty_outrevived := 0
  tty_position := 0
  tty_reprint := false
  tty_escaped := false
  tty_inhibited := 0
  tty_events := 0
  tty_pgrp := 0
  tty_openct := 0
  tty_select_ops := 0
  tty_select_proc := 0
  tty_index := 0
  tty_timer_on := false
  echoSink := []
  delivered := []
  sigsSent := []
  notifies := []
  replies := []

/-- A concrete line whose queue holds one EOF cell and whose reader
slot is occupied. -/
def c3eof : Tty :=
  { tty0 with
    tty_inbuf := fun i => if i = 0 then IN_EOF ||| IN_EOT ||| 4 else 0
    tty_incount := 1
    tty_inhead := 1
    tty_eotct := 1
    tty_inleft := 5 }

/-- A concrete raw-mode line with one queued cell, a nonzero speed
and flow control off. -/
def c6tp : Tty :=
  { tty0 with
    tty_termios := { termios0 with c_ospeed := 50 }
    tty_inbuf := fun i => if i = 0 then 97 else 0
    tty_incount := 1
    tty_inhead := 1 }

/-- A concrete line with a revived writer whose leftover count is
still nonzero. -/
def tpW9 : Tty :=
  { tty0 with
    tty_outrevived := 1
    tty_outcaller := 9
    tty_outproc := 3
    tty_outcum := 7
    tty_outleft := 5 }

/-- A concrete canonical-mode line whose queue holds one EOT cell and
whose reader slot is occupied. -/
def c3eot : Tty :=
  { tty0 with
    tty_termios := { termios0 with c_lflag := ICANON }
    tty_inbuf := fun i => if i = 0 then IN_EOT ||| 10 else 0
    tty_incount := 1
    tty_inhead := 1
    tty_eotct := 1
    tty_inleft := 5 }

/-- A concrete canonical-mode line whose input queue is full for
capacity 1. -/
def c1can : Tty :=
  { tty0 with
    tty_termios := { termios0 with c_lflag := ICANON }
    tty_incount := 1 }

/-- A concrete raw-mode line whose input queue is full for
capacity 1. -/
def c1raw : Tty :=
  { tty0 with
    tty_incount := 1 }

/-- The line state carried by a `PreResult`. -/
def preState : PreResult → Tty
  | .consumed tp => tp
  | .store tp _ => tp

/-- The line state carried by a `StoreResult`. -/
def storeState : StoreResult → Tty
  | .cont tp _ => tp
  | .brk tp => tp

/-- `echoEq a b` states that `b` agrees with `a` on every field except
possibly the echo trace and the reprint flag: the relation every pure
echo operation preserves. -/
def echoEq (a b : Tty) : Prop :=
  ∃ s r, b = { a with echoSink := s, tty_reprint := r }

/-! ## Arithmetic helper lemmas -/

lemma int_land_tabmask_nonneg (p : Int) : 0 ≤ Int.land p TAB_MASK := by
  cases p with
  | ofNat m => exact Int.ofNat_nonneg _
  | negSucc m => exact Int.ofNat_nonneg _

lemma int_land_tabmask_lt (p : Int) : Int.land p TAB_MASK < TAB_SIZE := by
  cases p with
  | ofNat m =>
      have h : m &&& 7 < 8 := Nat.lt_succ_of_le Nat.and_le_right
      exact Int.ofNat_lt.mpr h
  | negSucc m =>
      have hld : Nat.ldiff 7 m ≤ 7 :=
        Nat.le_of_testBit (fun i h => by
          rw [Nat.testBit_ldiff] at h
          exact Bool.and_elim_left h)
      exact Int.ofNat_lt.mpr (Nat.lt_succ_of_le hld)

lemma tablen_pos (p : Int) : 1 ≤ TAB_SIZE - Int.land p TAB_MASK := by
  have h := int_land_tabmask_lt p
  omega

lemma tablen_le (p : Int) : TAB_SIZE - Int.land p TAB_MASK ≤ 8 := by
  have h := int_land_tabmask_nonneg p
  have h8 : TAB_SIZE = 8 := rfl
  omega

/-! ## Claims about the output processor -/

/-- C4: in `out_process` with `OPOST` and `ONLCR` both set, a LF at
the current position is rewritten to CR in the current slot, the
position advances with wrap, LF is written in the next slot, the
column becomes 0, exactly one input character and two output slots
are consumed, and processing stops; with fewer than two slots left,
processing stops without consuming the LF or any output slot. -/
theorem C4_lf_crlf_mapping (oflag ict : Nat) (buf : List Nat) (bpos : Nat)
    (pos oct : Int)
    (hch : buf.getD bpos 0 = 10)
    (hof : oflag &&& (OPOST ||| ONLCR) = OPOST ||| ONLCR) :
    (2 ≤ oct →
      out_loop oflag (ict + 1) buf bpos pos oct =
        ⟨(buf.set bpos 13).set (wrapNext buf.length bpos) 10,
          wrapNext buf.length bpos, 0, ict, oct - 2⟩) ∧
    (oct < 2 →
      out_loop oflag (ict + 1) buf bpos pos oct =
        ⟨buf, bpos, pos, ict + 1, oct⟩) := by
  rw [List.getD_eq_getElem?_getD] at hch
  constructor <;> intro h
  · simp [out_loop, hch, hof, h]
  · have h2 : ¬ (2 ≤ oct) := by omega
    simp [out_loop, hch, hof, h2]

/-- Witness for C4 at a concrete buffer. -/
theorem C4_lf_crlf_mapping_witness :
    ([10, 66].getD 0 0 = 10 ∧ (3 &&& (OPOST ||| ONLCR)) = OPOST ||| ONLCR ∧
      (2 : Int) ≤ 4) ∧
    out_loop 3 2 [10, 66] 0 5 4 = ⟨[13, 10], 1, 0, 1, 2⟩ := by
  refine ⟨by decide, ?_⟩
  have h := (C4_lf_crlf_mapping 3 1 [10, 66] 0 5 4 (by decide) (by decide)).1 (by decide)
  rw [h]
  decide

/-- Bounds of the `out_process` loop: the residual input count never
exceeds the fuel, the residual output count never grows, and it stays
nonnegative whenever at least as many output slots as input
characters were supplied (the precondition `(*icount < *ocount)`
documented in the source). -/
lemma out_loop_bounds (oflag : Nat) (fuel : Nat) :
    ∀ (buf : List Nat) (bpos : Nat) (pos oct : Int),
      (out_loop oflag fuel buf bpos pos oct).ict ≤ fuel ∧
      (out_loop oflag fuel buf bpos pos oct).oct ≤ oct ∧
      ((fuel : Int) ≤ oct → 0 ≤ (out_loop oflag fuel buf bpos pos oct).oct) := by
  induction fuel with
  | zero => intro buf bpos pos oct; simp [out_loop]
  | succ f ih =>
    intro buf bpos pos oct
    rw [out_loop]
    dsimp only
    split
    · obtain ⟨h1, h2, h3⟩ := ih buf (wrapNext buf.length bpos) pos (oct - 1)
      exact ⟨Nat.le_succ_of_le h1, by omega, fun h => by have := h3 (by omega); omega⟩
    · split
      · obtain ⟨h1, h2, h3⟩ := ih buf (wrapNext buf.length bpos) (pos - 1) (oct - 1)
        exact ⟨Nat.le_succ_of_le h1, by omega, fun h => by have := h3 (by omega); omega⟩
      · split
        · obtain ⟨h1, h2, h3⟩ := ih buf (wrapNext buf.length bpos) 0 (oct - 1)
          exact ⟨Nat.le_succ_of_le h1, by omega, fun h => by have := h3 (by omega); omega⟩
        · split
          · split
            · split
              · next hoct =>
                  refine ⟨Nat.le_succ _, ?_, fun _ => ?_⟩ <;> (dsimp only; omega)
              · next hoct =>
                  refine ⟨Nat.le_refl _, ?_, fun h => ?_⟩ <;> (dsimp only; omega)
            · obtain ⟨h1, h2, h3⟩ := ih buf (wrapNext buf.length bpos) pos (oct - 1)
              exact ⟨Nat.le_succ_of_le h1, by omega,
                fun h => by have := h3 (by omega); omega⟩
          · split
            · split
              · split
                · next htl =>
                    have hp := tablen_pos pos
                    refine ⟨Nat.le_succ _, ?_, fun _ => ?_⟩ <;> (dsimp only; omega)
                · next htl =>
                    refine ⟨Nat.le_refl _, ?_, fun h => ?_⟩ <;> (dsimp only; omega)
              · obtain ⟨h1, h2, h3⟩ :=
                  ih buf (wrapNext buf.length bpos)
                    (pos + (TAB_SIZE - Int.land pos TAB_MASK)) (oct - 1)
                exact ⟨Nat.le_succ_of_le h1, by omega,
                  fun h => by have := h3 (by omega); omega⟩
            · obtain ⟨h1, h2, h3⟩ := ih buf (wrapNext buf.length bpos) (pos + 1) (oct - 1)
              exact ⟨Nat.le_succ_of_le h1, by omega,
                fun h => by have := h3 (by omega); omega⟩

/-- C10 counterexample: on two plain characters with `*icount = 2`
and only `*ocount = 1` output slots, `out_process` reports an output
usage of 2, exceeding the slots supplied: the documented precondition
`*icount < *ocount` of the source is needed for the output bound. -/
theorem C10_counterexample :
    (out_process tty0 [65, 65] 0 2 1).ocount = 2 ∧
      ¬ ((out_process tty0 [65, 65] 0 2 1).ocount ≤ 1) := by
  constructor <;> decide

/-- C10 (amended): for every input with nonnegative `*icount`, the
reported input consumption lies between 0 and the initial `*icount`
and the column is left reduced modulo the tab size; under the
documented precondition `*icount ≤ *ocount` the reported output usage
lies between 0 and the initial `*ocount`; an LF is only CR/LF-mapped
when at least 2 output slots remain and a tab is only expanded when
at least `tablen` slots remain, otherwise the buffer is returned
untouched. -/
theorem C10_out_process_bounds :
    (∀ (tp : Tty) (buf : List Nat) (bpos : Nat) (icount ocount : Int),
      0 ≤ icount →
        0 ≤ (out_process tp buf bpos icount ocount).icount ∧
        (out_process tp buf bpos icount ocount).icount ≤ icount) ∧
    (∀ (tp : Tty) (buf : List Nat) (bpos : Nat) (icount ocount : Int),
      0 ≤ icount → icount ≤ ocount →
        0 ≤ (out_process tp buf bpos icount ocount).ocount ∧
        (out_process tp buf bpos icount ocount).ocount ≤ ocount) ∧
    (∀ (tp : Tty) (buf : List Nat) (bpos : Nat) (icount ocount : Int),
        0 ≤ (out_process tp buf bpos icount ocount).tp.tty_position ∧
        (out_process tp buf bpos icount ocount).tp.tty_position < TAB_SIZE) ∧
    (∀ (oflag ict : Nat) (buf : List Nat) (bpos : Nat) (pos oct : Int),
      buf.getD bpos 0 = 10 → oflag &&& (OPOST ||| ONLCR) = OPOST ||| ONLCR →
      oct < 2 →
        out_loop oflag (ict + 1) buf bpos pos oct = ⟨buf, bpos, pos, ict + 1, oct⟩) ∧
    (∀ (oflag ict : Nat) (buf : List Nat) (bpos : Nat) (pos oct : Int),
      buf.getD bpos 0 = 9 → oflag &&& (OPOST ||| XTABS) = OPOST ||| XTABS →
      oct < TAB_SIZE - Int.land pos TAB_MASK →
        out_loop oflag (ict + 1) buf bpos pos oct = ⟨buf, bpos, pos, ict + 1, oct⟩) := by
  refine ⟨?_, ?_, ?_, ?_, ?_⟩
  · intro tp buf bpos icount ocount hi
    unfold out_process
    split
    · constructor <;> (dsimp only; omega)
    · obtain ⟨h1, _, _⟩ := out_loop_bounds tp.tty_termios.c_oflag icount.toNat buf bpos
        tp.tty_position ocount
      have ht : ((icount.toNat : Int)) = icount := Int.toNat_of_nonneg hi
      constructor
      · dsimp only
        omega
      · dsimp only
        omega
  · intro tp buf bpos icount ocount hi hio
    unfold out_process
    split
    · constructor <;> (dsimp only; omega)
    · obtain ⟨_, h2, h3⟩ := out_loop_bounds tp.tty_termios.c_oflag icount.toNat buf bpos
        tp.tty_position ocount
      have ht : ((icount.toNat : Int)) = icount := Int.toNat_of_nonneg hi
      have h0 := h3 (by omega)
      constructor
      · dsimp only
        omega
      · dsimp only
        omega
  · intro tp buf bpos icount ocount
    unfold out_process
    split
    · exact ⟨int_land_tabmask_nonneg _, int_land_tabmask_lt _⟩
    · exact ⟨int_land_tabmask_nonneg _, int_land_tabmask_lt _⟩
  · intro oflag ict buf bpos pos oct hch hof hoct
    rw [List.getD_eq_getElem?_getD] at hch
    have h2 : ¬ (2 ≤ oct) := by omega
    simp [out_loop, hch, hof, h2]
  · intro oflag ict buf bpos pos oct hch hof hoct
    rw [List.getD_eq_getElem?_getD] at hch
    have h2 : ¬ (TAB_SIZE - Int.land pos TAB_MASK ≤ oct) := by omega
    simp [out_loop, hch, hof, h2]

/-- Witness for C10 at a concrete call. -/
theorem C10_out_process_bounds_witness :
    ((0 : Int) ≤ 2 ∧ (2 : Int) ≤ 3) ∧
    (0 ≤ (out_process tty0 [65, 65, 65] 0 2 3).ocount ∧
      (out_process tty0 [65, 65, 65] 0 2 3).ocount ≤ 3) := by
  refine ⟨by decide, ?_⟩
  exact C10_out_process_bounds.2.1 tty0 [65, 65, 65] 0 2 3 (by decide) (by decide)

/-! ## Claims about the echo engine -/

/-- C7 counterexample: with `ECHO` off, `tty_echo` does not return the
cell unchanged: `ch &= ~IN_LEN` (tty.c:1054) runs before the `ECHO`
test, so a cell with a nonzero LEN field comes back with its LEN bits
cleared.  Input cell `0x10A` (newline, LEN = 1) returns as `0x00A`. -/
theorem C7_counterexample :
    (tty_echo tty0 0x10A).2 = 0x00A ∧ (tty_echo tty0 0x10A).2 ≠ 0x10A := by
  constructor <;> decide

/-- C7 (amended): with `ECHO` off, `tty_echo` emits a newline to the
device echo sink exactly when the LEN-cleared cell equals newline
with the EOT attribute and both `ICANON` and `ECHONL` are set, and it
returns the cell with its LEN attribute bits cleared and every other
bit unchanged, touching nothing else in the line state. -/
theorem C7_echo_off (tp : Tty) (ch : Nat)
    (h : tp.tty_termios.c_lflag &&& ECHO = 0) :
    (tty_echo tp ch).2 = ch &&& IN_NOT_LEN ∧
    (tty_echo tp ch).1 =
      (if ch &&& IN_NOT_LEN = (10 ||| IN_EOT) ∧
          tp.tty_termios.c_lflag &&& (ICANON ||| ECHONL) = (ICANON ||| ECHONL)
        then devEcho tp 10 else tp) := by
  unfold tty_echo
  rw [if_pos h]
  constructor
  · split <;> rfl
  · split <;> rfl

/-- Witness for C7 at a concrete cell with a nonzero LEN field. -/
theorem C7_echo_off_witness :
    (tty0.tty_termios.c_lflag &&& ECHO = 0) ∧
    (tty_echo tty0 0x10A).2 = 0x10A &&& IN_NOT_LEN := by
  exact ⟨by decide, (C7_echo_off tty0 0x10A (by decide)).1⟩

/-! ## Claims about `in_transfer` -/

/-- When the reader slot is exhausted the transfer loop does
nothing. -/
lemma in_transfer_loop_stop (cap f n : Nat) (tp : Tty) (h : tp.tty_inleft = 0) :
    in_transfer_loop cap f tp n = (tp, n) := by
  cases f <;> simp [in_transfer_loop, h]

/-- C3: `in_transfer` returns without changing the line unless a
reader slot exists (`tty_inleft > 0`) and `tty_eotct ≥ tty_min`,
except that with `ospeed == B0` it first forces `tty_min = 0` (so an
empty delivery, EOF, becomes possible); during the transfer a cell
carrying the EOF attribute is consumed without being copied to the
reader, and consuming an EOT cell in canonical mode sets the reader
leftover to 0, stopping the transfer at the line boundary. -/
theorem C3_in_transfer (cap : Nat) (tp : Tty) :
    (tp.tty_termios.c_ospeed ≠ B0 →
      (tp.tty_inleft = 0 ∨ tp.tty_eotct < tp.tty_min) → in_transfer cap tp = tp) ∧
    (tp.tty_termios.c_ospeed = B0 → tp.tty_inleft = 0 →
      in_transfer cap tp = { tp with tty_min := 0 }) ∧
    (∀ f n, tp.tty_inleft > 0 → tp.tty_eotct > 0 →
      tp.tty_inbuf tp.tty_intail &&& IN_EOF ≠ 0 →
      ∃ tp1, in_transfer_loop cap (f + 1) tp n = in_transfer_loop cap f tp1 n ∧
        tp1.delivered = tp.delivered ∧
        tp1.tty_intail = wrapNext cap tp.tty_intail ∧
        tp1.tty_incount = tp.tty_incount - 1) ∧
    (∀ f n, tp.tty_inleft > 0 → tp.tty_eotct > 0 →
      tp.tty_inbuf tp.tty_intail &&& IN_EOT ≠ 0 →
      tp.tty_termios.c_lflag &&& ICANON ≠ 0 →
      ∃ tp1, in_transfer_loop cap (f + 1) tp n =
          (tp1, if tp.tty_inbuf tp.tty_intail &&& IN_EOF = 0 then n + 1 else n) ∧
        tp1.tty_inleft = 0 ∧
        tp1.tty_intail = wrapNext cap tp.tty_intail ∧
        tp1.tty_incount = tp.tty_incount - 1 ∧
        tp1.tty_eotct = tp.tty_eotct - 1) := by
  refine ⟨?_, ?_, ?_, ?_⟩
  · intro hb h
    simp only [in_transfer]
    simp only [if_neg hb]
    exact if_pos h
  · intro hb h
    simp only [in_transfer]
    simp only [if_pos hb]
    exact if_pos (Or.inl h)
  · intro f n h1 h2 hEOF
    rw [show f + 1 = Nat.succ f from rfl, in_transfer_loop]
    rw [if_pos ⟨h1, h2⟩]
    simp only [if_neg hEOF]
    exact ⟨_, rfl, by split <;> (try split) <;> rfl, by split <;> (try split) <;> rfl,
      by split <;> (try split) <;> rfl⟩
  · intro f n h1 h2 hEOT hcanon
    rw [show f + 1 = Nat.succ f from rfl, in_transfer_loop]
    rw [if_pos ⟨h1, h2⟩]
    by_cases hEOF : tp.tty_inbuf tp.tty_intail &&& IN_EOF = 0
    · simp only [if_pos hEOF, if_pos hEOT, if_pos hcanon]
      rw [in_transfer_loop_stop]
      · exact ⟨_, rfl, rfl, rfl, rfl, rfl⟩
      · rfl
    · simp only [if_neg hEOF, if_pos hEOT, if_pos hcanon]
      rw [in_transfer_loop_stop]
      · exact ⟨_, rfl, rfl, rfl, rfl, rfl⟩
      · rfl

/-- Witness for C3 at concrete lines: a non-hung-up idle line is left
untouched, a hung-up idle line only gets `tty_min = 0`, an EOF cell is
consumed without delivery, and an EOT cell in canonical mode stops the
transfer. -/
theorem C3_in_transfer_witness :
    (in_transfer 4 { tty0 with tty_termios := { termios0 with c_ospeed := 50 } } =
      { tty0 with tty_termios := { termios0 with c_ospeed := 50 } }) ∧
    (in_transfer 4 tty0 = { tty0 with tty_min := 0 }) ∧
    (∃ tp1, in_transfer_loop 4 1 c3eof 0 = in_transfer_loop 4 0 tp1 0 ∧
      tp1.delivered = c3eof.delivered ∧
      tp1.tty_intail = wrapNext 4 c3eof.tty_intail ∧
      tp1.tty_incount = c3eof.tty_incount - 1) ∧
    (∃ tp1, in_transfer_loop 4 1 c3eot 0 =
        (tp1, if c3eot.tty_inbuf c3eot.tty_intail &&& IN_EOF = 0 then 0 + 1 else 0) ∧
      tp1.tty_inleft = 0 ∧
      tp1.tty_intail = wrapNext 4 c3eot.tty_intail ∧
      tp1.tty_incount = c3eot.tty_incount - 1 ∧
      tp1.tty_eotct = c3eot.tty_eotct - 1) := by
  refine ⟨?_, ?_, ?_, ?_⟩
  · exact (C3_in_transfer 4 _).1 (by decide) (by decide)
  · exact (C3_in_transfer 4 tty0).2.1 (by decide) (by decide)
  · exact (C3_in_transfer 4 c3eof).2.2.1 0 0 (by decide) (by decide) (by decide)
  · exact (C3_in_transfer 4 c3eot).2.2.2 0 0 (by decide) (by decide) (by decide)
      (by decide)

/-! ## Claims about the open and busy paths -/

/-- C8: an OPEN of the log device with read access is refused with
`EACCES` and changes nothing; an OPEN of any other line increments
`tty_openct`, and when `O_NOCTTY` is clear it records the calling
process as `tty_pgrp` and replies 1, otherwise it leaves `tty_pgrp`
alone and replies `OK`. -/
theorem C8_do_open (tp : Tty) (m : Msg) :
    (m.m_tty_line = LOG_MINOR → m.m_count.toNat &&& R_BIT ≠ 0 →
      do_open tp m = tty_reply tp TASK_REPLY m.m_source m.m_proc_nr EACCES) ∧
    (m.m_tty_line ≠ LOG_MINOR →
      (do_open tp m).tty_openct = tp.tty_openct + 1 ∧
      (m.m_count.toNat &&& O_NOCTTY = 0 →
        (do_open tp m).tty_pgrp = m.m_proc_nr ∧
        (do_open tp m).replies =
          tp.replies ++ [(TASK_REPLY, m.m_source, m.m_proc_nr, 1)]) ∧
      (m.m_count.toNat &&& O_NOCTTY ≠ 0 →
        (do_open tp m).tty_pgrp = tp.tty_pgrp ∧
        (do_open tp m).replies =
          tp.replies ++ [(TASK_REPLY, m.m_source, m.m_proc_nr, OK)])) := by
  constructor
  · intro hl hr
    unfold do_open
    rw [if_pos hl, if_pos hr]
  · intro hl
    unfold do_open
    rw [if_neg hl]
    by_cases hc : m.m_count.toNat &&& O_NOCTTY = 0
    · simp only [if_pos hc]
      exact ⟨rfl, fun _ => ⟨rfl, rfl⟩, fun hcc => absurd hc hcc⟩
    · simp only [if_neg hc]
      exact ⟨rfl, fun hcc => absurd hcc hc, fun _ => ⟨rfl, rfl⟩⟩

/-- Witness for C8: an OPEN without `O_NOCTTY` on line 0. -/
theorem C8_do_open_witness :
    ((0 : Nat) ≠ LOG_MINOR ∧ (3 : Int).toNat &&& O_NOCTTY = 0) ∧
    ((do_open tty0 ⟨1, 2, 3, 0, 0, 0⟩).tty_openct = tty0.tty_openct + 1 ∧
      (do_open tty0 ⟨1, 2, 3, 0, 0, 0⟩).tty_pgrp = 2) := by
  refine ⟨by decide, ?_, ?_⟩
  · exact ((C8_do_open tty0 ⟨1, 2, 3, 0, 0, 0⟩).2 (by decide)).1
  · exact (((C8_do_open tty0 ⟨1, 2, 3, 0, 0, 0⟩).2 (by decide)).2.1 (by decide)).1

/-- C5: a READ on a line whose reader slot is occupied replies `EIO`
and leaves the reader slot untouched; a WRITE on a line whose writer
slot is occupied replies `EIO` and leaves the writer slot untouched.
The theorems quantify over the device-probe, `sys_umap` and
`handle_events` collaborators, so they hold for every back-end. -/
theorem C5_busy_eio (cap : Nat) (devwr : Tty → Bool) (umap_ok : Bool)
    (hevents : Tty → Tty) (tp : Tty) (m : Msg) :
    (tp.tty_inleft > 0 →
      (do_read cap devwr umap_ok hevents tp m).tty_inleft = tp.tty_inleft ∧
      (do_read cap devwr umap_ok hevents tp m).tty_incum = tp.tty_incum ∧
      (do_read cap devwr umap_ok hevents tp m).tty_in_vir = tp.tty_in_vir ∧
      (do_read cap devwr umap_ok hevents tp m).tty_inproc = tp.tty_inproc ∧
      (do_read cap devwr umap_ok hevents tp m).tty_incaller = tp.tty_incaller ∧
      (do_read cap devwr umap_ok hevents tp m).tty_inrepcode = tp.tty_inrepcode ∧
      (do_read cap devwr umap_ok hevents tp m).tty_inrevived = tp.tty_inrevived ∧
      (do_read cap devwr umap_ok hevents tp m).replies =
        tp.replies ++ [(TASK_REPLY, m.m_source, m.m_proc_nr, EIO)]) ∧
    (tp.tty_outleft > 0 →
      (do_write hevents umap_ok tp m).tty_outleft = tp.tty_outleft ∧
      (do_write hevents umap_ok tp m).tty_outcum = tp.tty_outcum ∧
      (do_write hevents umap_ok tp m).tty_out_vir = tp.tty_out_vir ∧
      (do_write hevents umap_ok tp m).tty_outproc = tp.tty_outproc ∧
      (do_write hevents umap_ok tp m).tty_outcaller = tp.tty_outcaller ∧
      (do_write hevents umap_ok tp m).tty_outrepcode = tp.tty_outrepcode ∧
      (do_write hevents umap_ok tp m).tty_outrevived = tp.tty_outrevived ∧
      (do_write hevents umap_ok tp m).replies =
        tp.replies ++ [(TASK_REPLY, m.m_source, m.m_proc_nr, EIO)]) := by
  constructor
  · intro h
    unfold do_read
    rw [if_pos h]
    dsimp only
    split
    · unfold select_retry
      split
      · exact ⟨rfl, rfl, rfl, rfl, rfl, rfl, rfl, rfl⟩
      · exact ⟨rfl, rfl, rfl, rfl, rfl, rfl, rfl, rfl⟩
    · exact ⟨rfl, rfl, rfl, rfl, rfl, rfl, rfl, rfl⟩
  · intro h
    unfold do_write
    rw [if_pos h]
    exact ⟨rfl, rfl, rfl, rfl, rfl, rfl, rfl, rfl⟩

/-- Witness for C5: a busy reader and a busy writer both draw `EIO`. -/
theorem C5_busy_eio_witness :
    (({ tty0 with tty_inleft := 3 } : Tty).tty_inleft > 0 ∧
      ({ tty0 with tty_outleft := 4 } : Tty).tty_outleft > 0) ∧
    (do_read 4 (fun _ => false) true id { tty0 with tty_inleft := 3 }
        ⟨1, 2, 8, 0, 0, 0⟩).replies =
      ({ tty0 with tty_inleft := 3 } : Tty).replies ++ [(TASK_REPLY, 1, 2, EIO)] ∧
    (do_write id true { tty0 with tty_outleft := 4 } ⟨1, 2, 8, 0, 0, 0⟩).replies =
      ({ tty0 with tty_outleft := 4 } : Tty).replies ++ [(TASK_REPLY, 1, 2, EIO)] := by
  refine ⟨by decide, ?_, ?_⟩
  · exact ((C5_busy_eio 4 (fun _ => false) true id { tty0 with tty_inleft := 3 }
      ⟨1, 2, 8, 0, 0, 0⟩).1 (by decide)).2.2.2.2.2.2.2
  · exact ((C5_busy_eio 4 (fun _ => false) true id { tty0 with tty_outleft := 4 }
      ⟨1, 2, 8, 0, 0, 0⟩).2 (by decide)).2.2.2.2.2.2.2

/-! ## Claims about `setattr` -/

lemma wrapNext_eq_mod {cap : Nat} {i : Nat} (h : i < cap) :
    wrapNext cap i = (i + 1) % cap := by
  unfold wrapNext
  split
  · next he => rw [he, Nat.mod_self]
  · next he => rw [Nat.mod_eq_of_lt (by omega)]

/-- The marking loop of `setattr` sets `IN_EOT` exactly on the `count`
positions following `inp` (with wrap) and leaves other cells alone. -/
lemma markEotLoop_spec (cap : Nat) :
    ∀ (count : Nat) (buf : Nat → Nat) (inp : Nat), inp < cap →
      ∀ j, markEotLoop cap count buf inp j =
        if ∃ i, i < count ∧ (inp + i) % cap = j then buf j ||| IN_EOT else buf j := by
  intro count
  induction count with
  | zero =>
    intro buf inp hin j
    simp [markEotLoop]
  | succ c ih =>
    intro buf inp hin j
    have hcap : 0 < cap := Nat.lt_of_le_of_lt (Nat.zero_le _) hin
    rw [markEotLoop, wrapNext_eq_mod hin,
      ih (bufUpd buf inp (buf inp ||| IN_EOT)) ((inp + 1) % cap) (Nat.mod_lt _ hcap) j]
    by_cases hj : j = inp
    · subst hj
      have hz : (∃ i, i < c + 1 ∧ (j + i) % cap = j) :=
        ⟨0, by omega, by rw [Nat.add_zero, Nat.mod_eq_of_lt hin]⟩
      rw [if_pos hz]
      by_cases hex : ∃ i, i < c ∧ ((j + 1) % cap + i) % cap = j
      · rw [if_pos hex]
        show (bufUpd buf j (buf j ||| IN_EOT) j) ||| IN_EOT = buf j ||| IN_EOT
        simp [bufUpd, Nat.or_assoc]
      · rw [if_neg hex]
        simp [bufUpd]
    · have hb : bufUpd buf inp (buf inp ||| IN_EOT) j = buf j := by
        simp [bufUpd, hj]
      simp only [hb]
      have hiff : (∃ i, i < c ∧ ((inp + 1) % cap + i) % cap = j) ↔
          (∃ i, i < c + 1 ∧ (inp + i) % cap = j) := by
        constructor
        · rintro ⟨i, hi, hmod⟩
          rw [Nat.mod_add_mod] at hmod
          refine ⟨i + 1, by omega, ?_⟩
          rw [show inp + (i + 1) = inp + 1 + i by omega]
          exact hmod
        · rintro ⟨i, hi, hmod⟩
          cases i with
          | zero =>
            rw [Nat.add_zero, Nat.mod_eq_of_lt hin] at hmod
            exact absurd hmod (fun he => hj he.symm)
          | succ k =>
            refine ⟨k, by omega, ?_⟩
            rw [Nat.mod_add_mod, show inp + 1 + k = inp + (k + 1) by omega]
            exact hmod
      rw [if_congr hiff rfl rfl]

lemma sigchar_min (tp : Tty) (sig : Nat) : (sigchar tp sig).tty_min = tp.tty_min := by
  unfold sigchar
  split <;> (dsimp only; split <;> rfl)

lemma sigchar_timer_on (tp : Tty) (sig : Nat) :
    (sigchar tp sig).tty_timer_on = tp.tty_timer_on := by
  unfold sigchar
  split <;> (dsimp only; split <;> rfl)

lemma sigchar_inbuf (tp : Tty) (sig : Nat) :
    (sigchar tp sig).tty_inbuf = tp.tty_inbuf := by
  unfold sigchar
  split <;> (dsimp only; split <;> rfl)

lemma sigchar_eotct_cases (tp : Tty) (sig : Nat) :
    ((sigchar tp sig).tty_eotct = 0 ∧ (sigchar tp sig).tty_incount = 0) ∨
      ((sigchar tp sig).tty_eotct = tp.tty_eotct ∧
        (sigchar tp sig).tty_incount = tp.tty_incount) := by
  unfold sigchar
  split <;> dsimp only <;> split
  · exact Or.inl ⟨rfl, rfl⟩
  · exact Or.inr ⟨rfl, rfl⟩
  · exact Or.inl ⟨rfl, rfl⟩
  · exact Or.inr ⟨rfl, rfl⟩

lemma sigchar_inhibited_cases (tp : Tty) (sig : Nat) :
    (sigchar tp sig).tty_inhibited = RUNNING ∨
      (sigchar tp sig).tty_inhibited = tp.tty_inhibited := by
  unfold sigchar
  split <;> dsimp only <;> split
  · exact Or.inl rfl
  · exact Or.inr rfl
  · exact Or.inl rfl
  · exact Or.inr rfl

lemma sigchar_sigsSent (tp : Tty) (sig : Nat) :
    (sigchar tp sig).sigsSent =
      (if tp.tty_pgrp ≠ 0 then tp.sigsSent ++ [sig] else tp.sigsSent) := by
  unfold sigchar
  split <;> (dsimp only; split <;> rfl)

lemma setattr_mark_fields (cap : Nat) (tp : Tty) :
    (setattr_mark cap tp).tty_termios = tp.tty_termios ∧
    (setattr_mark cap tp).tty_min = tp.tty_min ∧
    (setattr_mark cap tp).tty_inhibited = tp.tty_inhibited ∧
    (setattr_mark cap tp).sigsSent = tp.sigsSent ∧
    (setattr_mark cap tp).tty_pgrp = tp.tty_pgrp ∧
    (setattr_mark cap tp).tty_incount = tp.tty_incount ∧
    (setattr_mark cap tp).tty_intail = tp.tty_intail ∧
    (setattr_mark cap tp).tty_timer_on = tp.tty_timer_on := by
  unfold setattr_mark
  split <;> exact ⟨rfl, rfl, rfl, rfl, rfl, rfl, rfl, rfl⟩

lemma setattr_mark_raw (cap : Nat) (tp : Tty)
    (h : tp.tty_termios.c_lflag &&& ICANON = 0) :
    (setattr_mark cap tp).tty_eotct = tp.tty_incount ∧
    (setattr_mark cap tp).tty_inbuf =
      markEotLoop cap tp.tty_incount tp.tty_inbuf tp.tty_intail := by
  unfold setattr_mark
  rw [if_pos h]
  exact ⟨rfl, rfl⟩

lemma setattr_min_fields (tp : Tty) :
    (setattr_min tp).tty_termios = tp.tty_termios ∧
    (setattr_min tp).tty_inhibited = tp.tty_inhibited ∧
    (setattr_min tp).sigsSent = tp.sigsSent ∧
    (setattr_min tp).tty_pgrp = tp.tty_pgrp ∧
    (setattr_min tp).tty_eotct = tp.tty_eotct ∧
    (setattr_min tp).tty_incount = tp.tty_incount ∧
    (setattr_min tp).tty_inbuf = tp.tty_inbuf ∧
    (setattr_min tp).tty_timer_on = tp.tty_timer_on := by
  unfold setattr_min
  split <;> exact ⟨rfl, rfl, rfl, rfl, rfl, rfl, rfl, rfl⟩

lemma setattr_min_min (tp : Tty) :
    (setattr_min tp).tty_min =
      (if tp.tty_termios.c_lflag &&& ICANON ≠ 0 then 1
        else if tp.tty_termios.c_cc VMIN = 0 ∧ tp.tty_termios.c_cc VTIME > 0 then 1
        else tp.tty_termios.c_cc VMIN) := by
  unfold setattr_min
  split
  · rfl
  · rfl

lemma setattr_ixon_fields (tp : Tty) :
    (setattr_ixon tp).tty_termios = tp.tty_termios ∧
    (setattr_ixon tp).tty_min = tp.tty_min ∧
    (setattr_ixon tp).sigsSent = tp.sigsSent ∧
    (setattr_ixon tp).tty_pgrp = tp.tty_pgrp ∧
    (setattr_ixon tp).tty_eotct = tp.tty_eotct ∧
    (setattr_ixon tp).tty_incount = tp.tty_incount ∧
    (setattr_ixon tp).tty_inbuf = tp.tty_inbuf ∧
    (setattr_ixon tp).tty_timer_on = tp.tty_timer_on := by
  unfold setattr_ixon
  split <;> exact ⟨rfl, rfl, rfl, rfl, rfl, rfl, rfl, rfl⟩

lemma setattr_ixon_inhibited (tp : Tty)
    (h : tp.tty_termios.c_iflag &&& IXON = 0) :
    (setattr_ixon tp).tty_inhibited = RUNNING := by
  unfold setattr_ixon
  rw [if_pos h]

/-- C6: `setattr` marks every queued cell with `IN_EOT` when the new
termios leaves canonical mode and makes `tty_eotct` equal to
`tty_incount` (of the original queue when no hangup flush follows);
it disables the read timer; it recomputes `tty_min` as 1 in canonical
mode and as `VMIN` in raw mode except that `VMIN == 0` with
`VTIME > 0` gives 1; with `IXON` clear it forces `tty_inhibited` to
running; and with `ospeed == B0` it invokes `sigchar` with `SIGHUP`,
visible as the `SIGHUP` sent to a nonzero process group. -/
theorem C6_setattr (cap : Nat) (tp : Tty) (htail : tp.tty_intail < cap) :
    (tp.tty_termios.c_lflag &&& ICANON = 0 →
      (∀ i, i < tp.tty_incount →
        (setattr cap tp).tty_inbuf ((tp.tty_intail + i) % cap) =
          tp.tty_inbuf ((tp.tty_intail + i) % cap) ||| IN_EOT) ∧
      (setattr cap tp).tty_eotct = (setattr cap tp).tty_incount ∧
      (tp.tty_termios.c_ospeed ≠ B0 → (setattr cap tp).tty_eotct = tp.tty_incount)) ∧
    (setattr cap tp).tty_timer_on = false ∧
    (setattr cap tp).tty_min =
      (if tp.tty_termios.c_lflag &&& ICANON ≠ 0 then 1
        else if tp.tty_termios.c_cc VMIN = 0 ∧ tp.tty_termios.c_cc VTIME > 0 then 1
        else tp.tty_termios.c_cc VMIN) ∧
    (tp.tty_termios.c_iflag &&& IXON = 0 →
      (setattr cap tp).tty_inhibited = RUNNING) ∧
    (tp.tty_termios.c_ospeed = B0 →
      (setattr cap tp).sigsSent =
        (if tp.tty_pgrp ≠ 0 then tp.sigsSent ++ [SIGHUP] else tp.sigsSent)) := by
  obtain ⟨m_ter, m_min, m_inh, m_sig, m_pg, m_cnt, m_tl, m_tmr⟩ :=
    setattr_mark_fields cap tp
  set tp1 := setattr_mark cap tp with htp1
  set tp2 : Tty := { tp1 with tty_timer_on := false } with htp2
  have t2_ter : tp2.tty_termios = tp.tty_termios := m_ter
  obtain ⟨n_ter, n_inh, n_sig, n_pg, n_eot, n_cnt, n_buf, n_tmr⟩ :=
    setattr_min_fields tp2
  set tp3 := setattr_min tp2 with htp3
  have t3_ter : tp3.tty_termios = tp.tty_termios := by rw [n_ter, t2_ter]
  obtain ⟨x_ter, x_min, x_sig, x_pg, x_eot, x_cnt, x_buf, x_tmr⟩ :=
    setattr_ixon_fields tp3
  set tp4 := setattr_ixon tp3 with htp4
  have t4_ter : tp4.tty_termios = tp.tty_termios := by rw [x_ter, t3_ter]
  have hsa0 : setattr cap tp =
      (if tp4.tty_termios.c_ospeed = B0 then sigchar tp4 SIGHUP else tp4) := rfl
  have hsa : setattr cap tp =
      (if tp.tty_termios.c_ospeed = B0 then sigchar tp4 SIGHUP else tp4) := by
    rw [hsa0, t4_ter]
  have t4_pg : tp4.tty_pgrp = tp.tty_pgrp := by rw [x_pg, n_pg, show tp2.tty_pgrp = tp.tty_pgrp from m_pg]
  have t4_sig : tp4.sigsSent = tp.sigsSent := by rw [x_sig, n_sig, show tp2.sigsSent = tp.sigsSent from m_sig]
  have t4_tmr : tp4.tty_timer_on = false := by rw [x_tmr, n_tmr]
  have t4_cnt : tp4.tty_incount = tp.tty_incount := by rw [x_cnt, n_cnt, show tp2.tty_incount = tp.tty_incount from m_cnt]
  have t4_min : tp4.tty_min =
      (if tp.tty_termios.c_lflag &&& ICANON ≠ 0 then 1
        else if tp.tty_termios.c_cc VMIN = 0 ∧ tp.tty_termios.c_cc VTIME > 0 then 1
        else tp.tty_termios.c_cc VMIN) := by
    rw [x_min, htp3, setattr_min_min, t2_ter]
  refine ⟨?_, ?_, ?_, ?_, ?_⟩
  · intro hcanon
    have hraw := setattr_mark_raw cap tp hcanon
    have t4_eot : tp4.tty_eotct = tp.tty_incount := by
      rw [x_eot, n_eot, show tp2.tty_eotct = tp1.tty_eotct from rfl, hraw.1]
    have t4_buf : tp4.tty_inbuf =
        markEotLoop cap tp.tty_incount tp.tty_inbuf tp.tty_intail := by
      rw [x_buf, n_buf, show tp2.tty_inbuf = tp1.tty_inbuf from rfl, hraw.2]
    refine ⟨?_, ?_, ?_⟩
    · intro i hi
      rw [hsa]
      split
      · rw [sigchar_inbuf, t4_buf,
          markEotLoop_spec cap tp.tty_incount tp.tty_inbuf tp.tty_intail htail,
          if_pos ⟨i, hi, rfl⟩]
      · rw [t4_buf,
          markEotLoop_spec cap tp.tty_incount tp.tty_inbuf tp.tty_intail htail,
          if_pos ⟨i, hi, rfl⟩]
    · rw [hsa]
      split
      · rcases sigchar_eotct_cases tp4 SIGHUP with ⟨h1, h2⟩ | ⟨h1, h2⟩ <;>
          simp only [h1, h2, t4_eot, t4_cnt]
      · rw [t4_eot, t4_cnt]
    · intro hb
      rw [hsa, if_neg hb]
      exact t4_eot
  · rw [hsa]
    split
    · rw [sigchar_timer_on]
      exact t4_tmr
    · exact t4_tmr
  · rw [hsa]
    split
    · rw [sigchar_min]
      exact t4_min
    · exact t4_min
  · intro hixon
    rw [hsa]
    have t4_inh : tp4.tty_inhibited = RUNNING := by
      rw [htp4]
      exact setattr_ixon_inhibited tp3 (by rw [t3_ter]; exact hixon)
    split
    · rcases sigchar_inhibited_cases tp4 SIGHUP with h1 | h1 <;> rw [h1]
      exact t4_inh
    · exact t4_inh
  · intro hb
    rw [hsa, if_pos hb, sigchar_sigsSent, t4_pg, t4_sig]

/-- Witness for C6 at a concrete raw-mode line. -/
theorem C6_setattr_witness :
    (c6tp.tty_intail < 4 ∧ c6tp.tty_termios.c_lflag &&& ICANON = 0 ∧
      0 < c6tp.tty_incount ∧ c6tp.tty_termios.c_ospeed ≠ B0 ∧
      c6tp.tty_termios.c_iflag &&& IXON = 0) ∧
    (setattr 4 c6tp).tty_inbuf ((c6tp.tty_intail + 0) % 4) =
      c6tp.tty_inbuf ((c6tp.tty_intail + 0) % 4) ||| IN_EOT ∧
    (setattr 4 c6tp).tty_eotct = c6tp.tty_incount ∧
    (setattr 4 c6tp).tty_timer_on = false ∧
    (setattr 4 c6tp).tty_inhibited = RUNNING := by
  have H := C6_setattr 4 c6tp (by decide)
  refine ⟨by decide, ?_, ?_, H.2.1, H.2.2.2.1 (by decide)⟩
  · exact (H.1 (by decide)).1 0 (by decide)
  · exact (H.1 (by decide)).2.2 (by decide)

/-! ## Claims about the STATUS poll -/

/-- C9 counterexample: a revived write matched by `do_status` is
replied with `REVIVE`, but the writer leftover count `tty_outleft` is
NOT cleared (tty.c:327 clears only `tty_outcum` and
`tty_outrevived`), unlike the reader branch which clears
`tty_inleft` as well: the claimed symmetric clearing fails. -/
theorem C9_counterexample :
    (do_status (fun _ => false) [tpW9] 9).2 = .revive 3 7 ∧
    ((do_status (fun _ => false) [tpW9] 9).1.head?.map Tty.tty_outleft = some 5) ∧
    ¬ ((do_status (fun _ => false) [tpW9] 9).1.head?.map Tty.tty_outleft = some 0) := by
  refine ⟨by decide, by decide, by decide⟩

/-- C9 (amended): a STATUS poll returns at most one pending event for
the calling subscriber, taking the first match scanning the lines in
order and, per line, checking select readiness (reply `IO_READY` with
the line index and ready operations, clearing those subscribed
bits), then a revived read for that caller (reply `REVIVE` with proc
and cumulative count, clearing the reader leftover, cumulative count
and revived flag), then a revived write for that caller (reply
`REVIVE` with proc and cumulative count, clearing the writer
cumulative count and revived flag but leaving its leftover count
untouched); if nothing matches the reply is `NO_STATUS`. -/
theorem C9_do_status (devwr : Tty → Bool) (caller : Nat) :
    (do_status devwr [] caller = ([], .noStatus)) ∧
    (∀ tp rest,
      (select_try devwr tp tp.tty_select_ops ≠ 0 ∧ tp.tty_select_proc = caller →
        do_status devwr (tp :: rest) caller =
          ({ tp with tty_select_ops := tp.tty_select_ops -
              (tp.tty_select_ops &&& select_try devwr tp tp.tty_select_ops) } :: rest,
            .ioReady tp.tty_index (select_try devwr tp tp.tty_select_ops))) ∧
      (¬(select_try devwr tp tp.tty_select_ops ≠ 0 ∧ tp.tty_select_proc = caller) →
        tp.tty_inrevived ≠ 0 ∧ tp.tty_incaller = caller →
        do_status devwr (tp :: rest) caller =
          ({ tp with tty_inleft := 0, tty_incum := 0, tty_inrevived := 0 } :: rest,
            .revive tp.tty_inproc tp.tty_incum)) ∧
      (¬(select_try devwr tp tp.tty_select_ops ≠ 0 ∧ tp.tty_select_proc = caller) →
        ¬(tp.tty_inrevived ≠ 0 ∧ tp.tty_incaller = caller) →
        tp.tty_outrevived ≠ 0 ∧ tp.tty_outcaller = caller →
        do_status devwr (tp :: rest) caller =
          ({ tp with tty_outcum := 0, tty_outrevived := 0 } :: rest,
            .revive tp.tty_outproc tp.tty_outcum) ∧
        (do_status devwr (tp :: rest) caller).1.head?.map Tty.tty_outleft =
          some tp.tty_outleft) ∧
      (¬(select_try devwr tp tp.tty_select_ops ≠ 0 ∧ tp.tty_select_proc = caller) →
        ¬(tp.tty_inrevived ≠ 0 ∧ tp.tty_incaller = caller) →
        ¬(tp.tty_outrevived ≠ 0 ∧ tp.tty_outcaller = caller) →
        do_status devwr (tp :: rest) caller =
          (tp :: (do_status devwr rest caller).1, (do_status devwr rest caller).2))) := by
  refine ⟨rfl, ?_⟩
  intro tp rest
  refine ⟨?_, ?_, ?_, ?_⟩
  · intro h1
    unfold do_status do_status_scan
    rw [if_pos h1]
  · intro h1 h2
    unfold do_status do_status_scan
    rw [if_neg h1, if_pos h2]
  · intro h1 h2 h3
    constructor
    · unfold do_status do_status_scan
      rw [if_neg h1, if_neg h2, if_pos h3]
    · unfold do_status do_status_scan
      rw [if_neg h1, if_neg h2, if_pos h3]
      rfl
  · intro h1 h2 h3
    unfold do_status
    conv_lhs => rw [do_status_scan]
    rw [if_neg h1, if_neg h2, if_neg h3]

/-- Witness for C9: a matched revived write at the head of the
table. -/
theorem C9_do_status_witness :
    (¬(select_try (fun _ => false) tpW9 tpW9.tty_select_ops ≠ 0 ∧
        tpW9.tty_select_proc = 9) ∧
      ¬(tpW9.tty_inrevived ≠ 0 ∧ tpW9.tty_incaller = 9) ∧
      (tpW9.tty_outrevived ≠ 0 ∧ tpW9.tty_outcaller = 9)) ∧
    do_status (fun _ => false) [tpW9] 9 =
      ({ tpW9 with tty_outcum := 0, tty_outrevived := 0 } :: [],
        .revive tpW9.tty_outproc tpW9.tty_outcum) := by
  refine ⟨⟨by decide, by decide, by decide⟩, ?_⟩
  exact (((C9_do_status (fun _ => false) 9).2 tpW9 []).2.2.1
    (by decide) (by decide) (by decide)).1

/-! ## Echo operations only touch the echo trace and the reprint flag -/

lemma echoEq_refl (a : Tty) : echoEq a a :=
  ⟨a.echoSink, a.tty_reprint, rfl⟩

lemma echoEq_trans {a b c : Tty} (h1 : echoEq a b) (h2 : echoEq b c) : echoEq a c := by
  obtain ⟨s1, r1, rfl⟩ := h1
  obtain ⟨s2, r2, rfl⟩ := h2
  exact ⟨s2, r2, rfl⟩

lemma echoEq_fields {a b : Tty} (h : echoEq a b) :
    b.tty_termios = a.tty_termios ∧ b.tty_inbuf = a.tty_inbuf ∧
    b.tty_inhead = a.tty_inhead ∧ b.tty_intail = a.tty_intail ∧
    b.tty_incount = a.tty_incount ∧ b.tty_eotct = a.tty_eotct ∧
    b.tty_inleft = a.tty_inleft ∧ b.tty_min = a.tty_min ∧
    b.tty_inhibited = a.tty_inhibited := by
  obtain ⟨s, r, rfl⟩ := h
  exact ⟨rfl, rfl, rfl, rfl, rfl, rfl, rfl, rfl, rfl⟩

lemma echoEq_reprint_update {a b : Tty} (h : echoEq a b) (r : Bool) :
    echoEq a { b with tty_reprint := r } := by
  obtain ⟨s1, r1, rfl⟩ := h
  exact ⟨s1, r, rfl⟩

lemma devEcho_echoEq (tp : Tty) (ch : Nat) : echoEq tp (devEcho tp ch) :=
  ⟨tp.echoSink ++ [ch], tp.tty_reprint, rfl⟩

lemma echoTab_echoEq : ∀ (f : Nat) (tp : Tty) (len : Nat),
    echoEq tp (echoTab tp len f).1 := by
  intro f
  induction f with
  | zero => intro tp len; exact echoEq_refl tp
  | succ f ih =>
    intro tp len
    rw [echoTab]
    split
    · exact echoEq_trans (devEcho_echoEq tp 32) (ih _ _)
    · exact devEcho_echoEq tp 32

lemma echoBackspaces_echoEq : ∀ (n : Nat) (tp : Tty),
    echoEq tp (echoBackspaces tp n) := by
  intro n
  induction n with
  | zero => intro tp; exact echoEq_refl tp
  | succ n ih =>
    intro tp
    rw [echoBackspaces]
    exact echoEq_trans (devEcho_echoEq tp 8) (ih _)

lemma rawecho_echoEq (tp : Tty) (ch : Nat) : echoEq tp (rawecho tp ch) := by
  unfold rawecho
  split
  · exact ⟨tp.echoSink ++ [ch], tp.tty_reprint, rfl⟩
  · exact ⟨tp.echoSink, tp.tty_reprint, rfl⟩

lemma eraseEchoes_echoEq : ∀ (n : Nat) (tp : Tty),
    echoEq tp (eraseEchoes tp n) := by
  intro n
  induction n with
  | zero => intro tp; exact echoEq_refl tp
  | succ n ih =>
    intro tp
    rw [eraseEchoes]
    exact echoEq_trans (echoEq_trans (echoEq_trans (rawecho_echoEq tp 8)
      (rawecho_echoEq _ 32)) (rawecho_echoEq _ 8)) (ih _)

lemma echoEq_eofStep {tp : Tty} {p : Prop} [Decidable p] (E : Tty × Nat)
    (hE : echoEq tp E.1) (rp : Bool) :
    echoEq tp
      ({ (if p then (echoBackspaces E.1 E.2, 0) else E).1 with tty_reprint := rp }) := by
  split
  · exact echoEq_reprint_update (echoEq_trans hE (echoBackspaces_echoEq _ _)) _
  · exact echoEq_reprint_update hE _

lemma tty_echo_echoEq (tp : Tty) (ch : Nat) : echoEq tp (tty_echo tp ch).1 := by
  unfold tty_echo
  dsimp only
  split
  · split
    · exact devEcho_echoEq tp 10
    · exact echoEq_refl tp
  · apply echoEq_eofStep
    split
    · split
      · exact echoTab_echoEq 8 tp 0
      · split
        · exact devEcho_echoEq tp _
        · exact echoEq_trans (devEcho_echoEq tp 94) (devEcho_echoEq _ _)
    · split
      · exact echoEq_trans (devEcho_echoEq tp 94) (devEcho_echoEq _ 63)
      · exact devEcho_echoEq tp _

/-! ## The echo engine preserves the EOT bit of a cell -/

lemma echoTab_len_le : ∀ (f : Nat) (tp : Tty) (len : Nat),
    len + f ≤ 8 → (echoTab tp len f).2 ≤ 8 := by
  intro f
  induction f with
  | zero => intro tp len h; simpa [echoTab] using h
  | succ f ih =>
    intro tp len h
    rw [echoTab]
    split
    · exact ih _ _ (by omega)
    · show len + 1 ≤ 8
      omega

lemma or_shift_and_eot (ch len : Nat) (h : len ≤ 8) :
    ((ch &&& IN_NOT_LEN) ||| (len <<< IN_LSHIFT)) &&& IN_EOT = ch &&& IN_EOT := by
  apply Nat.eq_of_testBit_eq
  intro i
  simp only [Nat.testBit_and, Nat.testBit_or, Nat.testBit_shiftLeft]
  by_cases hi : i = 12
  · subst hi
    have h1 : Nat.testBit IN_NOT_LEN 12 = true := by decide
    have h2 : Nat.testBit len 4 = false :=
      Nat.testBit_lt_two_pow (by norm_num; omega)
    have h3 : (decide (IN_LSHIFT ≤ 12)) = true := by decide
    simp [IN_LSHIFT, h1, h2]
  · have h0 : Nat.testBit IN_EOT i = false := by
      have : IN_EOT = 2 ^ 12 := by decide
      rw [this, Nat.testBit_two_pow]
      simpa using fun hh => hi hh.symm
    simp [h0]

lemma tty_echo_cell_eot (tp : Tty) (ch : Nat) :
    (tty_echo tp ch).2 &&& IN_EOT = ch &&& IN_EOT := by
  have hnot : ∀ c : Nat, (c &&& IN_NOT_LEN) &&& IN_EOT = c &&& IN_EOT := by
    intro c
    rw [Nat.and_assoc, show (IN_NOT_LEN &&& IN_EOT) = IN_EOT from by decide]
  unfold tty_echo
  dsimp only
  split
  · split
    · exact hnot ch
    · exact hnot ch
  · apply or_shift_and_eot
    split
    · exact Nat.zero_le 8
    · split
      · split
        · exact echoTab_len_le 8 tp 0 (by omega)
        · split
          · exact Nat.zero_le 8
          · omega
      · split
        · omega
        · omega

/-! ## Reprint rewrites cells without touching queue bookkeeping -/

lemma reprintLoop_pres (cap : Nat) : ∀ (f : Nat) (tp : Tty) (head c : Nat),
    (reprintLoop cap f tp head c).tty_termios = tp.tty_termios ∧
    (reprintLoop cap f tp head c).tty_intail = tp.tty_intail ∧
    (reprintLoop cap f tp head c).tty_inhead = tp.tty_inhead ∧
    (reprintLoop cap f tp head c).tty_incount = tp.tty_incount ∧
    (reprintLoop cap f tp head c).tty_eotct = tp.tty_eotct ∧
    (reprintLoop cap f tp head c).tty_inleft = tp.tty_inleft ∧
    (reprintLoop cap f tp head c).tty_min = tp.tty_min ∧
    (reprintLoop cap f tp head c).tty_inhibited = tp.tty_inhibited ∧
    ∀ j, (reprintLoop cap f tp head c).tty_inbuf j &&& IN_EOT =
      tp.tty_inbuf j &&& IN_EOT := by
  intro f
  induction f with
  | zero =>
    intro tp head c
    exact ⟨rfl, rfl, rfl, rfl, rfl, rfl, rfl, rfl, fun j => rfl⟩
  | succ f ih =>
    intro tp head c
    rw [reprintLoop]
    dsimp only
    set h1 := (if head = cap then 0 else head) with hh1
    obtain ⟨e1, e2, e3, e4, e5, e6, e7, e8, e9⟩ :=
      echoEq_fields (tty_echo_echoEq tp (tp.tty_inbuf h1))
    have hbuf : ∀ j,
        bufUpd (tty_echo tp (tp.tty_inbuf h1)).1.tty_inbuf h1
            (tty_echo tp (tp.tty_inbuf h1)).2 j &&& IN_EOT =
          tp.tty_inbuf j &&& IN_EOT := by
      intro j
      unfold bufUpd
      by_cases hj : j = h1
      · rw [if_pos hj, hj]
        exact tty_echo_cell_eot tp _
      · rw [if_neg hj, e2]
    split
    · refine ⟨?_, ?_, ?_, ?_, ?_, ?_, ?_, ?_, ?_⟩
      · rw [(ih _ _ _).1]
        exact e1
      · rw [(ih _ _ _).2.1]
        exact e4
      · rw [(ih _ _ _).2.2.1]
        exact e3
      · rw [(ih _ _ _).2.2.2.1]
        exact e5
      · rw [(ih _ _ _).2.2.2.2.1]
        exact e6
      · rw [(ih _ _ _).2.2.2.2.2.1]
        exact e7
      · rw [(ih _ _ _).2.2.2.2.2.2.1]
        exact e8
      · rw [(ih _ _ _).2.2.2.2.2.2.2.1]
        exact e9
      · intro j
        rw [(ih _ _ _).2.2.2.2.2.2.2.2 j]
        exact hbuf j
    · exact ⟨e1, e4, e3, e5, e6, e7, e8, e9, hbuf⟩

lemma reprint_pres (cap : Nat) (tp : Tty) :
    (reprint cap tp).tty_termios = tp.tty_termios ∧
    (reprint cap tp).tty_intail = tp.tty_intail ∧
    (reprint cap tp).tty_inhead = tp.tty_inhead ∧
    (reprint cap tp).tty_incount = tp.tty_incount ∧
    (reprint cap tp).tty_eotct = tp.tty_eotct ∧
    (reprint cap tp).tty_inleft = tp.tty_inleft ∧
    (reprint cap tp).tty_min = tp.tty_min ∧
    (reprint cap tp).tty_inhibited = tp.tty_inhibited ∧
    ∀ j, (reprint cap tp).tty_inbuf j &&& IN_EOT = tp.tty_inbuf j &&& IN_EOT := by
  unfold reprint
  dsimp only
  split
  · exact ⟨rfl, rfl, rfl, rfl, rfl, rfl, rfl, rfl, fun j => rfl⟩
  · obtain ⟨a1, a2, a3, a4, a5, a6, a7, a8, a9⟩ := echoEq_fields
      (echoEq_trans (echoEq_trans
        (tty_echo_echoEq ({ tp with tty_reprint := false })
          (tp.tty_termios.c_cc VREPRINT ||| IN_ESC))
        (rawecho_echoEq _ 13)) (rawecho_echoEq _ 10))
    refine ⟨?_, ?_, ?_, ?_, ?_, ?_, ?_, ?_, ?_⟩
    · rw [(reprintLoop_pres cap _ _ _ _).1]
      exact a1
    · rw [(reprintLoop_pres cap _ _ _ _).2.1]
      exact a4
    · rw [(reprintLoop_pres cap _ _ _ _).2.2.1]
      exact a3
    · rw [(reprintLoop_pres cap _ _ _ _).2.2.2.1]
      exact a5
    · rw [(reprintLoop_pres cap _ _ _ _).2.2.2.2.1]
      exact a6
    · rw [(reprintLoop_pres cap _ _ _ _).2.2.2.2.2.1]
      exact a7
    · rw [(reprintLoop_pres cap _ _ _ _).2.2.2.2.2.2.1]
      exact a8
    · rw [(reprintLoop_pres cap _ _ _ _).2.2.2.2.2.2.2.1]
      exact a9
    · intro j
      rw [(reprintLoop_pres cap _ _ _ _).2.2.2.2.2.2.2.2 j, a2]

/-! ## No step of the input processor changes the termios image -/

lemma sigchar_termios (tp : Tty) (sig : Nat) :
    (sigchar tp sig).tty_termios = tp.tty_termios := by
  unfold sigchar
  split <;> (dsimp only; split <;> rfl)

lemma back_over_termios (cap : Nat) (tp : Tty) :
    (back_over cap tp).1.tty_termios = tp.tty_termios := by
  unfold back_over
  dsimp only
  repeat' split
  all_goals
    first
      | rfl
      | exact (reprint_pres cap tp).1
      | (rw [(echoEq_fields (eraseEchoes_echoEq _ _)).1]
         try exact (reprint_pres cap tp).1
         try rfl)

lemma killLoop_termios (cap : Nat) : ∀ (f : Nat) (tp : Tty),
    (killLoop cap f tp).tty_termios = tp.tty_termios := by
  intro f
  induction f with
  | zero => intro tp; rfl
  | succ f ih =>
    intro tp
    rw [killLoop]
    split
    · rw [ih _]
      exact back_over_termios cap tp
    · exact back_over_termios cap tp

lemma in_transfer_loop_termios (cap : Nat) : ∀ (f : Nat) (tp : Tty) (n : Nat),
    (in_transfer_loop cap f tp n).1.tty_termios = tp.tty_termios := by
  intro f
  induction f with
  | zero => intro tp n; rfl
  | succ f ih =>
    intro tp n
    rw [in_transfer_loop]
    split
    · rw [ih _ _]
      dsimp only
      repeat' split
      all_goals rfl
    · rfl

lemma in_transfer_termios (cap : Nat) (tp : Tty) :
    (in_transfer cap tp).tty_termios = tp.tty_termios := by
  unfold in_transfer
  dsimp only
  repeat' split
  all_goals try rfl
  all_goals try dsimp only
  all_goals try rw [in_transfer_loop_termios cap]
  all_goals rfl

lemma in_process_store_termios (cap : Nat) (tp : Tty) (ch : Nat) (ts : Bool) :
    (storeState (in_process_store cap tp ch ts)).tty_termios = tp.tty_termios := by
  unfold in_process_store
  dsimp only
  repeat' split
  all_goals try dsimp only [storeState]
  all_goals try rfl
  all_goals try rw [in_transfer_termios cap]
  all_goals try dsimp only
  all_goals try rw [(echoEq_fields (tty_echo_echoEq _ _)).1]
  all_goals rfl

lemma in_process_sig_termios (tp : Tty) (ch : Nat) :
    (preState (in_process_sig tp ch)).tty_termios = tp.tty_termios := by
  unfold in_process_sig
  split
  · show (tty_echo (sigchar tp _) ch).1.tty_termios = tp.tty_termios
    rw [(echoEq_fields (tty_echo_echoEq _ ch)).1, sigchar_termios]
  · rfl

lemma in_process_flow_termios (tp : Tty) (ch : Nat) :
    (preState (in_process_flow tp ch)).tty_termios = tp.tty_termios := by
  unfold in_process_flow
  dsimp only
  repeat' split
  all_goals first | rfl | exact in_process_sig_termios _ ch

lemma in_process_canon_termios (cap : Nat) (tp : Tty) (ch : Nat) :
    (preState (in_process_canon cap tp ch)).tty_termios = tp.tty_termios := by
  unfold in_process_canon
  dsimp only
  repeat' split
  all_goals try exact in_process_flow_termios tp _
  all_goals dsimp only [preState]
  all_goals try rw [(echoEq_fields (rawecho_echoEq _ 10)).1]
  all_goals try rw [(echoEq_fields (tty_echo_echoEq _ _)).1]
  all_goals first
    | exact back_over_termios cap tp
    | exact killLoop_termios cap _ tp

lemma in_process_rest_termios (cap : Nat) (tp : Tty) (ch : Nat) :
    (preState (in_process_rest cap tp ch)).tty_termios = tp.tty_termios := by
  unfold in_process_rest
  dsimp only
  repeat' split
  all_goals first | rfl | exact in_process_canon_termios cap tp _

lemma in_process_pre_termios (cap : Nat) (tp : Tty) (c : Nat) :
    (preState (in_process_pre cap tp c)).tty_termios = tp.tty_termios := by
  unfold in_process_pre
  dsimp only
  repeat' split
  all_goals try exact in_process_rest_termios cap _ _
  all_goals dsimp only [preState]
  all_goals try rw [(echoEq_fields (rawecho_echoEq _ 8)).1,
    (echoEq_fields (rawecho_echoEq _ 94)).1]
  all_goals try rw [(reprint_pres cap _).1]
  all_goals rfl

lemma in_process_store_full_canon (cap : Nat) (tp : Tty) (ch : Nat) (ts : Bool)
    (hfull : tp.tty_incount = cap) (hc : tp.tty_termios.c_lflag &&& ICANON ≠ 0) :
    in_process_store cap tp ch ts = .cont tp ts := by
  unfold in_process_store
  rw [if_pos hfull, if_pos hc]

lemma in_process_store_full_raw (cap : Nat) (tp : Tty) (ch : Nat) (ts : Bool)
    (hfull : tp.tty_incount = cap) (hc : tp.tty_termios.c_lflag &&& ICANON = 0) :
    in_process_store cap tp ch ts = .brk tp := by
  unfold in_process_store
  rw [if_pos hfull, if_neg (not_not_intro hc)]

lemma in_process_store_canon_cont (cap : Nat) (tp : Tty) (ch : Nat) (ts : Bool)
    (hc : tp.tty_termios.c_lflag &&& ICANON ≠ 0) :
    ∃ tp2 ts2, in_process_store cap tp ch ts = .cont tp2 ts2 := by
  unfold in_process_store
  repeat' split
  all_goals first
    | exact ⟨_, _, rfl⟩
    | exact absurd hc (by assumption)

lemma in_process_loop_le (cap : Nat) :
    ∀ (buf : List Nat) (tp : Tty) (ts : Bool) (ct : Nat),
      (in_process_loop cap tp buf ts ct).2 ≤ ct + buf.length := by
  intro buf
  induction buf with
  | nil =>
    intro tp ts ct
    exact Nat.le_refl ct
  | cons c rest ih =>
    intro tp ts ct
    rw [in_process_loop]
    cases hp : in_process_pre cap tp c with
    | consumed tp1 =>
      dsimp only
      have h := ih tp1 ts (ct + 1)
      simp only [List.length_cons]
      omega
    | store tp1 ch =>
      dsimp only
      cases hs : in_process_store cap tp1 ch ts with
      | cont tp2 ts2 =>
        dsimp only
        have h := ih tp2 ts2 (ct + 1)
        simp only [List.length_cons]
        omega
      | brk tp2 =>
        dsimp only
        simp only [List.length_cons]
        omega

lemma in_process_loop_canon (cap : Nat) :
    ∀ (buf : List Nat) (tp : Tty) (ts : Bool) (ct : Nat),
      tp.tty_termios.c_lflag &&& ICANON ≠ 0 →
      (in_process_loop cap tp buf ts ct).2 = ct + buf.length := by
  intro buf
  induction buf with
  | nil =>
    intro tp ts ct _
    rfl
  | cons c rest ih =>
    intro tp ts ct hc
    rw [in_process_loop]
    cases hp : in_process_pre cap tp c with
    | consumed tp1 =>
      dsimp only
      have ht : tp1.tty_termios = tp.tty_termios := by
        have h := in_process_pre_termios cap tp c
        rw [hp] at h
        exact h
      rw [ih tp1 ts (ct + 1) (by rw [ht]; exact hc)]
      simp only [List.length_cons]
      omega
    | store tp1 ch =>
      dsimp only
      have ht : tp1.tty_termios = tp.tty_termios := by
        have h := in_process_pre_termios cap tp c
        rw [hp] at h
        exact h
      have hc1 : tp1.tty_termios.c_lflag &&& ICANON ≠ 0 := by
        rw [ht]; exact hc
      obtain ⟨tp2, ts2, hs⟩ := in_process_store_canon_cont cap tp1 ch ts hc1
      rw [hs]
      dsimp only
      have ht2 : tp2.tty_termios = tp1.tty_termios := by
        have h := in_process_store_termios cap tp1 ch ts
        rw [hs] at h
        exact h
      rw [ih tp2 ts2 (ct + 1) (by rw [ht2, ht]; exact hc)]
      simp only [List.length_cons]
      omega

lemma in_process_loop_brk (cap : Nat) (tp : Tty) (c : Nat) (rest : List Nat)
    (ts : Bool) (ct : Nat) (tp1 : Tty) (ch : Nat)
    (hp : in_process_pre cap tp c = .store tp1 ch)
    (hfull : tp1.tty_incount = cap)
    (hraw : tp1.tty_termios.c_lflag &&& ICANON = 0) :
    in_process_loop cap tp (c :: rest) ts ct = (tp1, ct) := by
  rw [in_process_loop, hp]
  dsimp only
  rw [in_process_store_full_raw cap tp1 ch ts hfull hraw]

/-- C1: the queue-full policy of `in_process` (tty.c:1004-1008).  When
a character is about to be stored and the input queue is full
(`tty_incount = cap`), canonical mode discards the character and
continues with the next byte (the line state and the timer flag pass
through unchanged and the loop goes on), while raw mode stops
processing immediately; in both cases `in_process` returns the number
of input bytes consumed, which never exceeds the byte count passed
in, equals it in canonical mode, and in the raw-mode full-queue case
is strictly less than the byte count passed in. -/
theorem C1_queue_full_policy (cap : Nat) (tp : Tty) (buf : List Nat) (ch : Nat)
    (ts : Bool) :
    (tp.tty_incount = cap → tp.tty_termios.c_lflag &&& ICANON ≠ 0 →
      in_process_store cap tp ch ts = .cont tp ts) ∧
    (tp.tty_incount = cap → tp.tty_termios.c_lflag &&& ICANON = 0 →
      in_process_store cap tp ch ts = .brk tp) ∧
    (in_process cap tp buf).2 ≤ buf.length ∧
    (tp.tty_termios.c_lflag &&& ICANON ≠ 0 →
      (in_process cap tp buf).2 = buf.length) ∧
    (∀ c rest ct ts1 tp1 ch1, in_process_pre cap tp c = .store tp1 ch1 →
      tp1.tty_incount = cap → tp1.tty_termios.c_lflag &&& ICANON = 0 →
      in_process_loop cap tp (c :: rest) ts1 ct = (tp1, ct) ∧
        ct < ct + (c :: rest).length) := by
  refine ⟨in_process_store_full_canon cap tp ch ts,
    in_process_store_full_raw cap tp ch ts, ?_, ?_, ?_⟩
  · show (in_process_loop cap tp buf false 0).2 ≤ buf.length
    have h := in_process_loop_le cap buf tp false 0
    omega
  · intro hc
    show (in_process_loop cap tp buf false 0).2 = buf.length
    rw [in_process_loop_canon cap buf tp false 0 hc]
    omega
  · intro c rest ct ts1 tp1 ch1 hp hfull hraw
    refine ⟨in_process_loop_brk cap tp c rest ts1 ct tp1 ch1 hp hfull hraw, ?_⟩
    simp only [List.length_cons]
    omega

/-- Witness for C1 at capacity 1: a full canonical line swallows a
plain character and continues, a full raw line breaks, and the broken
loop reports zero bytes consumed out of two passed in. -/
theorem C1_queue_full_policy_witness :
    in_process_store 1 c1can 65 false = .cont c1can false ∧
    in_process_store 1 c1raw 65 false = .brk c1raw ∧
    in_process_loop 1 c1raw [65, 66] false 0 = (c1raw, 0) ∧
    0 < [65, 66].length :=
  ⟨(C1_queue_full_policy 1 c1can [] 65 false).1 rfl (by decide),
   (C1_queue_full_policy 1 c1raw [] 65 false).2.1 rfl (by decide),
   ((C1_queue_full_policy 1 c1raw [65, 66] 65 false).2.2.2.2 65 [66] 0 false
      c1raw 65 (by rfl) rfl (by decide)).1,
   by decide⟩

/-! ## Preservation of the queue invariant (C2) -/

lemma countP_range_congr {p q : Nat → Bool} :
    ∀ (n : Nat), (∀ i, i < n → p i = q i) →
      (List.range n).countP p = (List.range n).countP q := by
  intro n
  induction n with
  | zero => intro _; rfl
  | succ n ih =>
    intro h
    rw [List.range_succ, List.countP_append, List.countP_append,
      ih (fun i hi => h i (by omega))]
    congr 1
    simp [List.countP_cons, List.countP_nil, h n (by omega)]

lemma countEotOn_congr (cap : Nat) (b1 b2 : Nat → Nat) (t1 t2 c1 c2 : Nat)
    (hbuf : ∀ j, b2 j &&& IN_EOT = b1 j &&& IN_EOT) (ht : t2 = t1) (hc : c2 = c1) :
    countEotOn cap b2 t2 c2 = countEotOn cap b1 t1 c1 := by
  subst ht hc
  unfold countEotOn
  exact countP_range_congr c2 (fun i _ => by rw [hbuf])

lemma countEotOn_le (cap : Nat) (buf : Nat → Nat) (tail c : Nat) :
    countEotOn cap buf tail c ≤ c := by
  unfold countEotOn
  calc (List.range c).countP _ ≤ (List.range c).length := List.countP_le_length _
    _ = c := List.length_range c

lemma countEot_le (cap : Nat) (tp : Tty) : countEot cap tp ≤ tp.tty_incount :=
  countEotOn_le cap tp.tty_inbuf tp.tty_intail tp.tty_incount

lemma countEotOn_succ_head (cap : Nat) (buf : Nat → Nat) (tail c : Nat) :
    countEotOn cap buf tail (c + 1) =
      (if buf (tail % cap) &&& IN_EOT ≠ 0 then 1 else 0) +
        countEotOn cap buf ((tail + 1) % cap) c := by
  unfold countEotOn
  rw [List.range_succ_eq_map, List.countP_cons, List.countP_map]
  have h1 : ∀ i, i < c →
      ((fun i => decide (buf ((tail + i) % cap) &&& IN_EOT ≠ 0)) ∘ Nat.succ) i =
        (fun i => decide (buf (((tail + 1) % cap + i) % cap) &&& IN_EOT ≠ 0)) i := by
    intro i _
    simp only [Function.comp_apply]
    rw [Nat.mod_add_mod, show tail + 1 + i = tail + Nat.succ i from by omega]
  rw [countP_range_congr c h1, Nat.add_comm]
  congr 1
  simp [Nat.add_zero]

lemma countEotOn_succ_last (cap : Nat) (buf : Nat → Nat) (tail c : Nat) :
    countEotOn cap buf tail (c + 1) =
      countEotOn cap buf tail c +
        (if buf ((tail + c) % cap) &&& IN_EOT ≠ 0 then 1 else 0) := by
  unfold countEotOn
  rw [List.range_succ, List.countP_append]
  congr 1
  simp [List.countP_cons]

lemma countEotOn_snoc (cap : Nat) (buf : Nat → Nat) (tail c : Nat) (v : Nat)
    (htail : tail < cap) (hc : c < cap) :
    countEotOn cap (bufUpd buf ((tail + c) % cap) v) tail (c + 1) =
      countEotOn cap buf tail c + (if v &&& IN_EOT ≠ 0 then 1 else 0) := by
  rw [countEotOn_succ_last]
  congr 1
  · unfold countEotOn
    apply countP_range_congr
    intro i hi
    have hne : (tail + i) % cap ≠ (tail + c) % cap := by
      intro he
      have hmod : Nat.ModEq cap (tail + i) (tail + c) := he
      have hdvd : cap ∣ (tail + c) - (tail + i) :=
        (Nat.modEq_iff_dvd' (by omega)).1 hmod
      have hle : cap ≤ (tail + c) - (tail + i) := Nat.le_of_dvd (by omega) hdvd
      omega
    show decide (bufUpd buf ((tail + c) % cap) v ((tail + i) % cap) &&& IN_EOT ≠ 0) =
      decide (buf ((tail + i) % cap) &&& IN_EOT ≠ 0)
    rw [show bufUpd buf ((tail + c) % cap) v ((tail + i) % cap) =
      buf ((tail + i) % cap) from by simp [bufUpd, hne]]
  · simp [bufUpd]

lemma or_eot_and_eot_ne (a : Nat) : (a ||| IN_EOT) &&& IN_EOT ≠ 0 := by
  intro h
  have h12 : ((a ||| IN_EOT) &&& IN_EOT).testBit 12 = false := by
    rw [h]; simp
  rw [Nat.testBit_and, Nat.testBit_or] at h12
  have ht : IN_EOT.testBit 12 = true := by decide
  simp [ht] at h12

lemma countEotOn_mark (cap : Nat) (buf : Nat → Nat) (tail c : Nat)
    (htail : tail < cap) :
    countEotOn cap (markEotLoop cap c buf tail) tail c = c := by
  unfold countEotOn
  rw [countP_range_congr c (q := fun _ => true) ?_]
  · rw [List.countP_true, List.length_range]
  · intro i hi
    rw [markEotLoop_spec cap c buf tail htail, if_pos ⟨i, hi, rfl⟩]
    simp only [decide_eq_true_eq]
    exact or_eot_and_eot_ne _

lemma prev_index (cap t n hd : Nat) (hcap : 0 < cap) (hn : n ≠ 0)
    (h4 : (t + n) % cap = hd) :
    (if hd = 0 then cap else hd) - 1 = (t + (n - 1)) % cap := by
  have hq := Nat.div_add_mod (t + n) cap
  rw [h4] at hq
  have hhd : hd < cap := h4 ▸ Nat.mod_lt _ hcap
  by_cases h0 : hd = 0
  · rw [if_pos h0]
    rw [h0, Nat.add_zero] at hq
    have hq1 : (t + n) / cap ≠ 0 := by
      intro hz
      rw [hz, Nat.mul_zero] at hq
      omega
    obtain ⟨q, hqq⟩ : ∃ q, (t + n) / cap = q + 1 :=
      ⟨(t + n) / cap - 1,
        (Nat.succ_pred_eq_of_pos (Nat.pos_of_ne_zero hq1)).symm⟩
    rw [hqq] at hq
    have hmul : cap * (q + 1) = cap * q + cap := by ring
    rw [show t + (n - 1) = cap * q + (cap - 1) from by omega,
      Nat.mul_add_mod, Nat.mod_eq_of_lt (by omega)]
  · rw [if_neg h0]
    rw [show t + (n - 1) = cap * ((t + n) / cap) + (hd - 1) from by omega,
      Nat.mul_add_mod, Nat.mod_eq_of_lt (by omega)]

lemma Inv_of_fields {cap : Nat} {a b : Tty}
    (hbuf : ∀ j, b.tty_inbuf j &&& IN_EOT = a.tty_inbuf j &&& IN_EOT)
    (ht : b.tty_intail = a.tty_intail) (hh : b.tty_inhead = a.tty_inhead)
    (hc : b.tty_incount = a.tty_incount) (he : b.tty_eotct = a.tty_eotct)
    (hInv : Inv cap a) : Inv cap b := by
  obtain ⟨h1, h2, h3, h4, h5⟩ := hInv
  refine ⟨ht ▸ h1, hh ▸ h2, hc ▸ h3, by rw [ht, hc, hh]; exact h4, ?_⟩
  rw [he, h5]
  show countEotOn cap a.tty_inbuf a.tty_intail a.tty_incount =
    countEotOn cap b.tty_inbuf b.tty_intail b.tty_incount
  exact (countEotOn_congr cap a.tty_inbuf b.tty_inbuf a.tty_intail b.tty_intail
    a.tty_incount b.tty_incount hbuf ht hc).symm

lemma Inv_echoEq {cap : Nat} {a b : Tty} (h : echoEq a b) (hInv : Inv cap a) :
    Inv cap b := by
  obtain ⟨ht0, hbuf, hh, ht, hc, he, _⟩ := echoEq_fields h
  exact Inv_of_fields (fun j => by rw [hbuf]) ht hh hc he hInv

lemma Inv_flushed {cap : Nat} {b : Tty} (hh : b.tty_inhead < cap)
    (ht : b.tty_intail = b.tty_inhead) (hc : b.tty_incount = 0)
    (he : b.tty_eotct = 0) : Inv cap b := by
  refine ⟨ht ▸ hh, hh, hc ▸ Nat.zero_le cap, ?_, ?_⟩
  · rw [ht, hc, Nat.add_zero, Nat.mod_eq_of_lt hh]
  · rw [he]
    show 0 = countEotOn cap b.tty_inbuf b.tty_intail b.tty_incount
    rw [hc]
    rfl

lemma sigchar_Inv (cap : Nat) (tp : Tty) (sig : Nat) (h : Inv cap tp) :
    Inv cap (sigchar tp sig) := by
  unfold sigchar
  dsimp only
  repeat' split
  all_goals first
    | exact h
    | exact Inv_of_fields (fun j => rfl) rfl rfl rfl rfl h
    | exact Inv_flushed h.2.1 rfl rfl rfl

lemma tty_icancel_Inv (cap : Nat) (tp : Tty) (h : Inv cap tp) :
    Inv cap (tty_icancel tp) :=
  Inv_flushed h.2.1 rfl rfl rfl

lemma Inv_pop {cap : Nat} {a b : Tty}
    (hbuf : ∀ j, b.tty_inbuf j &&& IN_EOT = a.tty_inbuf j &&& IN_EOT)
    (ht : b.tty_intail = a.tty_intail)
    (hh : b.tty_inhead = (if a.tty_inhead = 0 then cap else a.tty_inhead) - 1)
    (hc : b.tty_incount = a.tty_incount - 1)
    (he : b.tty_eotct = a.tty_eotct)
    (hc0 : a.tty_incount ≠ 0)
    (heot : a.tty_inbuf ((if a.tty_inhead = 0 then cap else a.tty_inhead) - 1) &&&
      IN_EOT = 0)
    (hInv : Inv cap a) : Inv cap b := by
  obtain ⟨h1, h2, h3, h4, h5⟩ := hInv
  have hcap : 0 < cap := by omega
  have hprev : (if a.tty_inhead = 0 then cap else a.tty_inhead) - 1 =
      (a.tty_intail + (a.tty_incount - 1)) % cap :=
    prev_index cap a.tty_intail a.tty_incount a.tty_inhead hcap hc0 h4
  refine ⟨ht ▸ h1, ?_, by omega, ?_, ?_⟩
  · rw [hh, hprev]
    exact Nat.mod_lt _ hcap
  · rw [ht, hc, hh, hprev]
  · have h5' : a.tty_eotct =
        countEotOn cap a.tty_inbuf a.tty_intail a.tty_incount := h5
    have hdec := countEotOn_succ_last cap a.tty_inbuf a.tty_intail
      (a.tty_incount - 1)
    rw [show a.tty_incount - 1 + 1 = a.tty_incount from by omega, ← hprev] at hdec
    rw [if_neg (by simp [heot])] at hdec
    show b.tty_eotct = countEotOn cap b.tty_inbuf b.tty_intail b.tty_incount
    rw [he, countEotOn_congr cap a.tty_inbuf b.tty_inbuf a.tty_intail b.tty_intail
      (a.tty_incount - 1) b.tty_incount hbuf ht hc]
    omega

lemma back_over_Inv (cap : Nat) (tp : Tty) (h : Inv cap tp) :
    Inv cap (back_over cap tp).1 := by
  unfold back_over
  dsimp only
  by_cases hc0 : tp.tty_incount = 0
  · rw [if_pos hc0]
    exact h
  · rw [if_neg hc0]
    by_cases heot0 : tp.tty_inbuf
        ((if tp.tty_inhead = 0 then cap else tp.tty_inhead) - 1) &&& IN_EOT ≠ 0
    · rw [if_pos heot0]
      exact h
    · rw [if_neg heot0]
      have heot : tp.tty_inbuf
          ((if tp.tty_inhead = 0 then cap else tp.tty_inhead) - 1) &&& IN_EOT = 0 :=
        not_ne_iff.mp heot0
      set prev := (if tp.tty_inhead = 0 then cap else tp.tty_inhead) - 1 with hprev
      set tpr := if tp.tty_reprint = true then reprint cap tp else tp with htpr
      set b : Tty :=
        { tpr with
          tty_inhead := prev
          tty_incount := tpr.tty_incount - 1 } with hbdef
      have hbuf : ∀ j, b.tty_inbuf j &&& IN_EOT = tp.tty_inbuf j &&& IN_EOT := by
        intro j
        rw [hbdef]
        dsimp only
        rw [htpr]
        split
        · exact (reprint_pres cap tp).2.2.2.2.2.2.2.2 j
        · rfl
      have ht : b.tty_intail = tp.tty_intail := by
        rw [hbdef]
        dsimp only
        rw [htpr]
        split
        · exact (reprint_pres cap tp).2.1
        · rfl
      have hcn : b.tty_incount = tp.tty_incount - 1 := by
        rw [hbdef]
        dsimp only
        rw [htpr]
        split
        · rw [(reprint_pres cap tp).2.2.2.1]
        · rfl
      have he : b.tty_eotct = tp.tty_eotct := by
        rw [hbdef]
        dsimp only
        rw [htpr]
        split
        · exact (reprint_pres cap tp).2.2.2.2.1
        · rfl
      have hb : Inv cap b :=
        Inv_pop hbuf ht (by rw [hbdef]) hcn he hc0 heot h
      split
      · exact Inv_echoEq (eraseEchoes_echoEq _ _) hb
      · exact hb

lemma killLoop_Inv (cap : Nat) : ∀ (f : Nat) (tp : Tty), Inv cap tp →
    Inv cap (killLoop cap f tp) := by
  intro f
  induction f with
  | zero => exact fun tp h => h
  | succ f ih =>
    intro tp h
    rw [killLoop]
    split
    · exact ih _ (back_over_Inv cap tp h)
    · exact back_over_Inv cap tp h

lemma Inv_dequeue {cap : Nat} {a b : Tty}
    (hbuf : ∀ j, b.tty_inbuf j &&& IN_EOT = a.tty_inbuf j &&& IN_EOT)
    (ht : b.tty_intail = wrapNext cap a.tty_intail)
    (hh : b.tty_inhead = a.tty_inhead)
    (hc : b.tty_incount = a.tty_incount - 1)
    (he : b.tty_eotct = if a.tty_inbuf a.tty_intail &&& IN_EOT ≠ 0 then
      a.tty_eotct - 1 else a.tty_eotct)
    (hcnt : 0 < a.tty_incount)
    (hInv : Inv cap a) : Inv cap b := by
  obtain ⟨h1, h2, h3, h4, h5⟩ := hInv
  have hcap : 0 < cap := by omega
  have htail1 : wrapNext cap a.tty_intail = (a.tty_intail + 1) % cap :=
    wrapNext_eq_mod h1
  have h5' : a.tty_eotct =
      countEotOn cap a.tty_inbuf a.tty_intail a.tty_incount := h5
  have hdec := countEotOn_succ_head cap a.tty_inbuf a.tty_intail
    (a.tty_incount - 1)
  rw [show a.tty_incount - 1 + 1 = a.tty_incount from by omega,
    Nat.mod_eq_of_lt h1] at hdec
  refine ⟨?_, hh ▸ h2, by omega, ?_, ?_⟩
  · rw [ht, htail1]
    exact Nat.mod_lt _ hcap
  · rw [ht, hh, hc, htail1, Nat.mod_add_mod,
      show a.tty_intail + 1 + (a.tty_incount - 1) =
        a.tty_intail + a.tty_incount from by omega]
    exact h4
  · show b.tty_eotct = countEotOn cap b.tty_inbuf b.tty_intail b.tty_incount
    rw [he, countEotOn_congr cap a.tty_inbuf b.tty_inbuf ((a.tty_intail + 1) % cap)
      b.tty_intail (a.tty_incount - 1) b.tty_incount hbuf (ht.trans htail1) hc]
    by_cases hE : a.tty_inbuf a.tty_intail &&& IN_EOT ≠ 0
    · rw [if_pos hE]
      rw [if_pos hE] at hdec
      omega
    · rw [if_neg hE]
      rw [if_neg hE] at hdec
      omega

lemma in_transfer_loop_Inv (cap : Nat) : ∀ (f : Nat) (tp : Tty) (n : Nat),
    Inv cap tp → Inv cap (in_transfer_loop cap f tp n).1 := by
  intro f
  induction f with
  | zero => exact fun tp n h => h
  | succ f ih =>
    intro tp n h
    rw [in_transfer_loop]
    split
    · next hg =>
      dsimp only
      apply ih
      have hcnt : 0 < tp.tty_incount :=
        Nat.lt_of_lt_of_le hg.2 (h.2.2.2.2 ▸ countEot_le cap tp)
      split
      · next hEOT =>
        split
        · exact Inv_dequeue (fun j => by dsimp only; split <;> rfl)
            (by dsimp only; split <;> rfl) (by dsimp only; split <;> rfl)
            (by dsimp only; split <;> rfl)
            (by rw [if_pos hEOT]; dsimp only; split <;> rfl) hcnt h
        · exact Inv_dequeue (fun j => by dsimp only; split <;> rfl)
            (by dsimp only; split <;> rfl) (by dsimp only; split <;> rfl)
            (by dsimp only; split <;> rfl)
            (by rw [if_pos hEOT]; dsimp only; split <;> rfl) hcnt h
      · next hEOT =>
        exact Inv_dequeue (fun j => by dsimp only; split <;> rfl)
          (by dsimp only; split <;> rfl) (by dsimp only; split <;> rfl)
          (by dsimp only; split <;> rfl)
          (by rw [if_neg hEOT]; dsimp only; split <;> rfl) hcnt h
    · exact h

lemma in_transfer_Inv (cap : Nat) (tp : Tty) (h : Inv cap tp) :
    Inv cap (in_transfer cap tp) := by
  unfold in_transfer
  dsimp only
  repeat' split
  all_goals first
    | exact h
    | exact Inv_of_fields (fun j => rfl) rfl rfl rfl rfl h
    | exact Inv_of_fields (fun j => rfl) rfl rfl rfl rfl
        (in_transfer_loop_Inv cap _ _ 0
          (Inv_of_fields (fun j => rfl) rfl rfl rfl rfl h))
    | exact Inv_of_fields (fun j => rfl) rfl rfl rfl rfl
        (in_transfer_loop_Inv cap _ _ 0 h)

lemma setattr_mark_Inv (cap : Nat) (tp : Tty) (h : Inv cap tp) :
    Inv cap (setattr_mark cap tp) := by
  obtain ⟨h1, h2, h3, h4, h5⟩ := h
  unfold setattr_mark
  split
  · refine ⟨h1, h2, h3, h4, ?_⟩
    show tp.tty_incount = countEotOn cap
      (markEotLoop cap tp.tty_incount tp.tty_inbuf tp.tty_intail)
      tp.tty_intail tp.tty_incount
    exact (countEotOn_mark cap tp.tty_inbuf tp.tty_intail tp.tty_incount h1).symm
  · exact ⟨h1, h2, h3, h4, h5⟩

lemma setattr_Inv (cap : Nat) (tp : Tty) (h : Inv cap tp) :
    Inv cap (setattr cap tp) := by
  unfold setattr
  dsimp only
  have hm := setattr_mark_Inv cap tp h
  have hmin : Inv cap
      (setattr_min { setattr_mark cap tp with tty_timer_on := false }) := by
    unfold setattr_min
    split
    · exact Inv_of_fields (fun j => rfl) rfl rfl rfl rfl hm
    · exact Inv_of_fields (fun j => rfl) rfl rfl rfl rfl hm
  have hix : Inv cap (setattr_ixon
      (setattr_min { setattr_mark cap tp with tty_timer_on := false })) := by
    unfold setattr_ixon
    split
    · exact Inv_of_fields (fun j => rfl) rfl rfl rfl rfl hmin
    · exact hmin
  split
  · exact sigchar_Inv cap _ SIGHUP hix
  · exact hix

lemma Inv_enqueue {cap : Nat} {a b : Tty} (v : Nat)
    (hInv : Inv cap a)
    (hfull : a.tty_incount ≠ cap)
    (hbuf : b.tty_inbuf = bufUpd a.tty_inbuf a.tty_inhead v)
    (ht : b.tty_intail = a.tty_intail)
    (hh : b.tty_inhead = wrapNext cap a.tty_inhead)
    (hc : b.tty_incount = a.tty_incount + 1)
    (he : b.tty_eotct = if v &&& IN_EOT ≠ 0 then a.tty_eotct + 1 else a.tty_eotct) :
    Inv cap b := by
  obtain ⟨h1, h2, h3, h4, h5⟩ := hInv
  have hcap : 0 < cap := by omega
  have hlt : a.tty_incount < cap := by omega
  have h5' : a.tty_eotct =
      countEotOn cap a.tty_inbuf a.tty_intail a.tty_incount := h5
  refine ⟨ht ▸ h1, ?_, by omega, ?_, ?_⟩
  · rw [hh, wrapNext_eq_mod h2]
    exact Nat.mod_lt _ hcap
  · rw [ht, hh, hc, wrapNext_eq_mod h2, ← h4, Nat.mod_add_mod]
    congr 1
    all_goals omega
  · have hq := countEotOn_snoc cap a.tty_inbuf a.tty_intail a.tty_incount v h1 hlt
    rw [h4] at hq
    show b.tty_eotct = countEotOn cap b.tty_inbuf b.tty_intail b.tty_incount
    rw [he, hbuf, ht, hc, hq]
    by_cases hv : v &&& IN_EOT ≠ 0
    · rw [if_pos hv, if_pos hv]
      omega
    · rw [if_neg hv, if_neg hv]
      omega

lemma Inv_timer (cap : Nat) (tp : Tty) (b : Bool) (h : Inv cap tp) :
    Inv cap { tp with tty_timer_on := b } :=
  Inv_of_fields (fun j => rfl) rfl rfl rfl rfl h

lemma store_enqueue_Inv (cap : Nat) (s2tp : Tty) (s2ch : Nat) (h : Inv cap s2tp)
    (hfull : s2tp.tty_incount ≠ cap) :
    Inv cap
      { s2tp with
        tty_inbuf := bufUpd s2tp.tty_inbuf s2tp.tty_inhead s2ch
        tty_inhead := wrapNext cap s2tp.tty_inhead
        tty_incount := s2tp.tty_incount + 1
        tty_eotct := if s2ch &&& IN_EOT ≠ 0 then s2tp.tty_eotct + 1
          else s2tp.tty_eotct } :=
  Inv_enqueue s2ch h hfull rfl rfl rfl rfl rfl

lemma store_tail_Inv (cap : Nat) {b : Tty} (hb : Inv cap b) :
    Inv cap (if b.tty_incount = cap then in_transfer cap b else b) := by
  split
  · exact in_transfer_Inv cap b hb
  · exact hb

lemma in_process_store_Inv (cap : Nat) (tp : Tty) (ch : Nat) (ts : Bool)
    (h : Inv cap tp) : Inv cap (storeState (in_process_store cap tp ch ts)) := by
  unfold in_process_store
  dsimp only
  split
  · split
    · exact h
    · exact h
  · next hfull =>
    dsimp only [storeState]
    split
    · split
      · split
        · exact store_tail_Inv cap (store_enqueue_Inv cap _ _
            (Inv_echoEq (tty_echo_echoEq _ _) (Inv_timer cap tp true h))
            (by rw [(echoEq_fields (tty_echo_echoEq _ _)).2.2.2.2.1]; exact hfull))
        · exact store_tail_Inv cap
            (store_enqueue_Inv cap _ _ (Inv_timer cap tp true h) hfull)
      · split
        · exact store_tail_Inv cap (store_enqueue_Inv cap _ _
            (Inv_echoEq (tty_echo_echoEq _ _) h)
            (by rw [(echoEq_fields (tty_echo_echoEq _ _)).2.2.2.2.1]; exact hfull))
        · exact store_tail_Inv cap (store_enqueue_Inv cap _ _ h hfull)
    · split
      · exact store_tail_Inv cap (store_enqueue_Inv cap _ _
          (Inv_echoEq (tty_echo_echoEq _ _) h)
          (by rw [(echoEq_fields (tty_echo_echoEq _ _)).2.2.2.2.1]; exact hfull))
      · exact store_tail_Inv cap (store_enqueue_Inv cap _ _ h hfull)

lemma in_process_sig_Inv (cap : Nat) (tp : Tty) (ch : Nat) (h : Inv cap tp) :
    Inv cap (preState (in_process_sig tp ch)) := by
  unfold in_process_sig
  dsimp only
  split
  · exact Inv_echoEq (tty_echo_echoEq _ _) (sigchar_Inv cap tp _ h)
  · exact h

lemma in_process_flow_Inv (cap : Nat) (tp : Tty) (ch : Nat) (h : Inv cap tp) :
    Inv cap (preState (in_process_flow tp ch)) := by
  unfold in_process_flow
  dsimp only
  repeat' split
  all_goals first
    | exact h
    | exact Inv_of_fields (fun j => rfl) rfl rfl rfl rfl h
    | exact in_process_sig_Inv cap _ _ h
    | exact in_process_sig_Inv cap _ _ (Inv_of_fields (fun j => rfl) rfl rfl rfl rfl h)

lemma in_process_canon_Inv (cap : Nat) (tp : Tty) (ch : Nat) (h : Inv cap tp) :
    Inv cap (preState (in_process_canon cap tp ch)) := by
  unfold in_process_canon
  dsimp only
  repeat' split
  all_goals first
    | exact in_process_flow_Inv cap _ _ h
    | exact Inv_echoEq (tty_echo_echoEq _ _) (back_over_Inv cap tp h)
    | exact back_over_Inv cap tp h
    | exact Inv_echoEq (rawecho_echoEq _ _)
        (Inv_echoEq (tty_echo_echoEq _ _) (killLoop_Inv cap _ tp h))
    | exact Inv_echoEq (tty_echo_echoEq _ _) (killLoop_Inv cap _ tp h)
    | exact killLoop_Inv cap _ tp h

lemma in_process_rest_Inv (cap : Nat) (tp : Tty) (ch0 : Nat) (h : Inv cap tp) :
    Inv cap (preState (in_process_rest cap tp ch0)) := by
  unfold in_process_rest
  dsimp only
  repeat' split
  all_goals first
    | exact h
    | exact in_process_canon_Inv cap tp _ h

lemma in_process_pre_Inv (cap : Nat) (tp0 : Tty) (c : Nat) (h : Inv cap tp0) :
    Inv cap (preState (in_process_pre cap tp0 c)) := by
  unfold in_process_pre
  dsimp only
  repeat' split
  all_goals first
    | exact in_process_rest_Inv cap _ _
        (Inv_of_fields (fun j => rfl) rfl rfl rfl rfl h)
    | exact Inv_echoEq (rawecho_echoEq _ _) (Inv_echoEq (rawecho_echoEq _ _)
        (Inv_of_fields (fun j => rfl) rfl rfl rfl rfl h))
    | exact Inv_of_fields (fun j => (reprint_pres cap _).2.2.2.2.2.2.2.2 j)
        (reprint_pres cap _).2.1 (reprint_pres cap _).2.2.1
        (reprint_pres cap _).2.2.2.1 (reprint_pres cap _).2.2.2.2.1
        (Inv_of_fields (fun j => rfl) rfl rfl rfl rfl h)

lemma in_process_loop_Inv (cap : Nat) :
    ∀ (buf : List Nat) (tp : Tty) (ts : Bool) (ct : Nat),
      Inv cap tp → Inv cap (in_process_loop cap tp buf ts ct).1 := by
  intro buf
  induction buf with
  | nil => exact fun tp ts ct h => h
  | cons c rest ih =>
    intro tp ts ct h
    rw [in_process_loop]
    cases hp : in_process_pre cap tp c with
    | consumed tp1 =>
      dsimp only
      have h1 : Inv cap tp1 := by
        have hh := in_process_pre_Inv cap tp c h
        rw [hp] at hh
        exact hh
      exact ih tp1 ts (ct + 1) h1
    | store tp1 ch =>
      dsimp only
      have h1 : Inv cap tp1 := by
        have hh := in_process_pre_Inv cap tp c h
        rw [hp] at hh
        exact hh
      have h2 := in_process_store_Inv cap tp1 ch ts h1
      cases hs : in_process_store cap tp1 ch ts with
      | cont tp2 ts2 =>
        dsimp only
        rw [hs] at h2
        exact ih tp2 ts2 (ct + 1) h2
      | brk tp2 =>
        dsimp only
        rw [hs] at h2
        exact h2

/-- C2: the circular-queue invariant of a line — head and tail are
valid indices, `0 ≤ eot_count ≤ count ≤ capacity`,
`tail + count ≡ head (mod capacity)` and `tty_eotct` counts exactly
the queued line breaks — is preserved by every operation that touches
the input queue: the `in_process` loop and its enqueue step
(tty.c:1026-1034), the `in_transfer` dequeue loop (tty.c:827-854),
`back_over` (tty.c:1114-1137), `tty_icancel` (tty.c:1388-1395), the
`sigchar` flush (tty.c:1363-1383) and `setattr` (tty.c:1289-1336);
the numeric invariants of the specification follow from `Inv`. -/
theorem C2_queue_invariant (cap : Nat) (tp : Tty) (buf : List Nat) (ch : Nat)
    (ts : Bool) (sig : Nat) :
    (Inv cap tp →
      tp.tty_eotct ≤ tp.tty_incount ∧ tp.tty_incount ≤ cap ∧
        (tp.tty_intail + tp.tty_incount) % cap = tp.tty_inhead) ∧
    (Inv cap tp → Inv cap (in_process cap tp buf).1) ∧
    (Inv cap tp → Inv cap (storeState (in_process_store cap tp ch ts))) ∧
    (Inv cap tp → Inv cap (in_transfer cap tp)) ∧
    (Inv cap tp → Inv cap (back_over cap tp).1) ∧
    (Inv cap tp → Inv cap (tty_icancel tp)) ∧
    (Inv cap tp → Inv cap (sigchar tp sig)) ∧
    (Inv cap tp → Inv cap (setattr cap tp)) := by
  refine ⟨fun h => ⟨?_, h.2.2.1, h.2.2.2.1⟩,
    fun h => in_process_loop_Inv cap buf tp false 0 h,
    fun h => in_process_store_Inv cap tp ch ts h,
    fun h => in_transfer_Inv cap tp h,
    fun h => back_over_Inv cap tp h,
    fun h => tty_icancel_Inv cap tp h,
    fun h => sigchar_Inv cap tp sig h,
    fun h => setattr_Inv cap tp h⟩
  rw [h.2.2.2.2]
  exact countEot_le cap tp

/-- Witness for C2 on a canonical-mode line (capacity 2) holding one
EOT cell: the invariant holds and is preserved across input
processing, transfer, erase, cancel, signal flush and attribute
application. -/
theorem C2_queue_invariant_witness :
    Inv 2 c3eot ∧
    (c3eot.tty_eotct ≤ c3eot.tty_incount ∧ c3eot.tty_incount ≤ 2 ∧
      (c3eot.tty_intail + c3eot.tty_incount) % 2 = c3eot.tty_inhead) ∧
    Inv 2 (in_process 2 c3eot [65]).1 ∧
    Inv 2 (storeState (in_process_store 2 c3eot 65 false)) ∧
    Inv 2 (in_transfer 2 c3eot) ∧
    Inv 2 (back_over 2 c3eot).1 ∧
    Inv 2 (tty_icancel c3eot) ∧
    Inv 2 (sigchar c3eot SIGINT) ∧
    Inv 2 (setattr 2 c3eot) :=
  ⟨by decide,
   (C2_queue_invariant 2 c3eot [65] 65 false SIGINT).1 (by decide),
   (C2_queue_invariant 2 c3eot [65] 65 false SIGINT).2.1 (by decide),
   (C2_queue_invariant 2 c3eot [65] 65 false SIGINT).2.2.1 (by decide),
   (C2_queue_invariant 2 c3eot [65] 65 false SIGINT).2.2.2.1 (by decide),
   (C2_queue_invariant 2 c3eot [65] 65 false SIGINT).2.2.2.2.1 (by decide),
   (C2_queue_invariant 2 c3eot [65] 65 false SIGINT).2.2.2.2.2.1 (by decide),
   (C2_queue_invariant 2 c3eot [65] 65 false SIGINT).2.2.2.2.2.2.1 (by decide),
   (C2_queue_invariant 2 c3eot [65] 65 false SIGINT).2.2.2.2.2.2.2 (by decide)⟩

end TTY
